import Mathlib

/-!
# DirectTrading container: filter engine and workflow controller

Shallow embedding of `src/containers/DirectTrading/DirectTrading.js`, and of the `details`
projection of `src/services/api/transactions.js` (namespace `Transactions`).

* JavaScript strings are `String`s, read through their list of characters.
* A JavaScript Number is a `JSNumber`: `NaN`, the two infinities, or a finite
  value given by its exact rational.  The conversion of a decimal literal to
  the nearest Number is a parameter `rnd` of `parseFloat`; the conversion of the
  language is `roundBinary64` (binary64, round to nearest, ties to even).
* Timestamps are integer Numbers (`Int`): `%` on them is the truncating `Int.tmod`,
  which is exact, and the result of `+` and `-` is rounded by `roundInteger`.
* `filter.offerIssued` is `''` or a number: `Option Int`, `none` being `''`.
* `TRADE_POSITIONS_LIMIT` (imported from `../../constants`), the translated labels
  and the answer of `web3Service.hasMetaMaskProvider()` are parameters.
* `setState` is the record update of the state; the callback of `validate` runs at
  once; `componentDidUpdate` is the list of the calls it issues.
-/

namespace DirectTrading

/-! ## JavaScript values -/

/-- A JavaScript Number: `NaN`, `-Infinity`, a finite value, `+Infinity`. -/
inductive JSNumber where
  | nan
  | negInf
  | fin (q : ℚ)
  | posInf
  deriving DecidableEq, Repr

/-- The relational operator `a >= b` on Numbers: false as soon as one side is `NaN`. -/
def JSNumber.ge : JSNumber → JSNumber → Bool
  | .nan, _ => false
  | _, .nan => false
  | .posInf, _ => true
  | _, .negInf => true
  | .fin a, .fin b => decide (b ≤ a)
  | .fin _, .posInf => false
  | .negInf, .fin _ => false
  | .negInf, .posInf => false

/-- Unary minus on Numbers. -/
def JSNumber.neg : JSNumber → JSNumber
  | .nan => .nan
  | .negInf => .posInf
  | .fin q => .fin (-q)
  | .posInf => .negInf

/-- The integer nearest to `a / b`, the even one of the two when `a / b` lies halfway. -/
def nearestTiesToEven (a b : Nat) : Nat :=
  let q := a / b
  let r := a % b
  if 2 * r > b ∨ (2 * r = b ∧ q % 2 = 1) then q + 1 else q

/-- The Number for a rational value: binary64, round to nearest, ties to even.  With
`|q| = a / b`, the significand is counted in units of `2 ^ E / 2 ^ 1074`, where `E` is
chosen so that the significand has 53 bits (`E = 0` in the subnormal range); a result of
`2 ^ 1024` or more is an infinity. -/
def roundBinary64 (q : ℚ) : JSNumber :=
  let a := q.num.natAbs
  let b := q.den
  let E := Nat.log 2 (a * 2 ^ 1075 / b) - 53
  let m := nearestTiesToEven (a * 2 ^ 1074) (b * 2 ^ E)
  if 2 ^ 2098 ≤ m * 2 ^ E then (if q.num < 0 then JSNumber.negInf else JSNumber.posInf)
  else JSNumber.fin ((if q.num < 0 then -1 else 1) * ((m * 2 ^ E : ℕ) : ℚ) / 2 ^ 1074)

/-- The Number for an integer value, itself an integer: binary64, round to nearest, ties to
even.  An integer of magnitude below `2 ^ 53` is a Number; a larger one is rounded to 53
significant bits.  (The sums and differences of timestamps rounded here stay below
`2 ^ 1024`, so no infinity arises.) -/
def roundInteger (n : Int) : Int :=
  if n.natAbs < 2 ^ 53 then n
  else
    n.sign *
      ((nearestTiesToEven n.natAbs (2 ^ (Nat.log 2 n.natAbs - 52)) *
        2 ^ (Nat.log 2 n.natAbs - 52) : Nat) : Int)

/-- The characters `String.prototype.trim` and `parseFloat` skip: WhiteSpace and LineTerminator. -/
def isStrWhiteSpaceChar (c : Char) : Bool :=
  c.val ∈ [0x09, 0x0A, 0x0B, 0x0C, 0x0D, 0x20, 0xA0, 0x1680, 0x2000, 0x2001, 0x2002, 0x2003,
    0x2004, 0x2005, 0x2006, 0x2007, 0x2008, 0x2009, 0x200A, 0x2028, 0x2029, 0x202F, 0x205F,
    0x3000, 0xFEFF]

/-- The class `\d` (and DecimalDigit): one of `0` .. `9`. -/
def isDecimalDigit (c : Char) : Bool :=
  decide ('0'.toNat ≤ c.toNat) && decide (c.toNat ≤ '9'.toNat)

/-- Mathematical value of a DecimalDigit. -/
def digitValue (c : Char) : Nat :=
  c.toNat - '0'.toNat

/-- Mathematical value of DecimalDigits, most significant digit first. -/
def digitsValue (ds : List Char) : Nat :=
  ds.foldl (fun acc c => acc * 10 + digitValue c) 0

/-- Value of the longest ExponentPart (`e` or `E`, an optional sign, at least one digit)
that starts the text; `0` when the text does not start with one. -/
def exponentPart (cs : List Char) : Int :=
  match cs with
  | c :: rest =>
    if c = 'e' ∨ c = 'E' then
      match rest with
      | '+' :: ds => if (ds.takeWhile isDecimalDigit).isEmpty then 0
                     else (digitsValue (ds.takeWhile isDecimalDigit) : Int)
      | '-' :: ds => if (ds.takeWhile isDecimalDigit).isEmpty then 0
                     else -(digitsValue (ds.takeWhile isDecimalDigit) : Int)
      | ds => if (ds.takeWhile isDecimalDigit).isEmpty then 0
              else (digitsValue (ds.takeWhile isDecimalDigit) : Int)
    else 0
  | [] => 0

/-- Longest prefix that is a StrUnsignedDecimalLiteral, as its Number:
`Infinity`, or the mathematical value of `digits . digits? exponent?`, `. digits exponent?`
or `digits exponent?`, converted by `rnd`.  `NaN` when no prefix is such a literal. -/
def strUnsignedDecimalLiteral (rnd : ℚ → JSNumber) (cs : List Char) : JSNumber :=
  if "Infinity".toList.isPrefixOf cs then .posInf
  else
    let ip := cs.takeWhile isDecimalDigit
    match cs.dropWhile isDecimalDigit with
    | '.' :: r =>
      let fp := r.takeWhile isDecimalDigit
      if ip.isEmpty && fp.isEmpty then .nan
      else
        rnd (((digitsValue ip : ℚ) + (digitsValue fp : ℚ) / 10 ^ fp.length)
          * 10 ^ exponentPart (r.dropWhile isDecimalDigit))
    | r =>
      if ip.isEmpty then .nan
      else rnd ((digitsValue ip : ℚ) * 10 ^ exponentPart r)

/-- The global `parseFloat` on a string: leading white space is skipped, then the longest
prefix that is a StrDecimalLiteral (optional sign, unsigned literal) is converted. -/
def parseFloat (rnd : ℚ → JSNumber) (s : List Char) : JSNumber :=
  match s.dropWhile isStrWhiteSpaceChar with
  | '+' :: cs => strUnsignedDecimalLiteral rnd cs
  | '-' :: cs => (strUnsignedDecimalLiteral rnd cs).neg
  | cs => strUnsignedDecimalLiteral rnd cs

/-- The call `s.replace(',', '.')` with a string pattern: only the first `,` is replaced. -/
def replaceFirstComma : List Char → List Char
  | [] => []
  | c :: cs => if c = ',' then '.' :: cs else c :: replaceFirstComma cs

/-! ## Data model -/

/-- The constant `DAY_SECONDS`. -/
def DAY_SECONDS : Int := 86400

/-- A trade position as read by the container; `other` stands for its remaining fields. -/
structure TradePosition where
  offerIssuedTimestamp : Int
  energyAvailableFloat : JSNumber
  other : String
  deriving DecidableEq

/-- The `filter` part of the container state (`offerIssued = none` is `''`). -/
structure Filter where
  energyAvailable : String
  offerIssued : Option Int
  deriving DecidableEq

/-- The constant `DEFAULT_FILTER`. -/
def DEFAULT_FILTER : Filter :=
  { energyAvailable := "", offerIssued := none }

/-! ## Filter engine: `renderOpenTradePositionsTable` -/

/-- The callback given to `tradePositions.filter` in `renderOpenTradePositionsTable`.
The test `if (filter.offerIssued)` is JavaScript truthiness: `''` and `0` are falsy; the
test `if (filter.energyAvailable)` is true of every non-empty string.  The sum
`filter.offerIssued + DAY_SECONDS` is rounded to a Number; the comparisons are exact. -/
def isPass (rnd : ℚ → JSNumber) (filter : Filter) (tradePosition : TradePosition) : Bool :=
  let isPass := true
  let isPass :=
    match filter.offerIssued with
    | some offerIssued =>
      if offerIssued ≠ 0 then
        isPass &&
          (decide (tradePosition.offerIssuedTimestamp > offerIssued) &&
            decide (tradePosition.offerIssuedTimestamp ≤
              roundInteger (offerIssued + DAY_SECONDS)))
      else isPass
    | none => isPass
  let isPass :=
    if filter.energyAvailable.data ≠ [] then
      isPass &&
        tradePosition.energyAvailableFloat.ge
          (parseFloat rnd (replaceFirstComma filter.energyAvailable.data))
    else isPass
  isPass

/-- The constant `filteredTradePositions` of `renderOpenTradePositionsTable`:
`tradePositions.filter(...).slice(0, TRADE_POSITIONS_LIMIT)`. -/
def filteredTradePositions (rnd : ℚ → JSNumber) (TRADE_POSITIONS_LIMIT : Nat) (filter : Filter)
    (tradePositions : List TradePosition) : List TradePosition :=
  (tradePositions.filter (isPass rnd filter)).take TRADE_POSITIONS_LIMIT

/-- The props `renderOpenTradePositionsTable` passes to `TradePositionsList`. -/
structure TradePositionsListProps where
  tradeVolume : String
  dateFilter : Option Int
  tradePositions : List TradePosition
  deriving DecidableEq

/-- The element built by `renderOpenTradePositionsTable` for the state's `filter`. -/
def renderOpenTradePositionsTable (rnd : ℚ → JSNumber) (TRADE_POSITIONS_LIMIT : Nat)
    (filter : Filter) (tradePositions : List TradePosition) : TradePositionsListProps :=
  { tradeVolume := filter.energyAvailable
    dateFilter := filter.offerIssued
    tradePositions := filteredTradePositions rnd TRADE_POSITIONS_LIMIT filter tradePositions }

/-! ## Live-input guard: the pattern of `handleTradeVolumeChange` -/

/-- The class `\d` as a regular expression: `0|1|2|3|4|5|6|7|8|9`. -/
def digitClass : RegularExpression Char :=
  "0123456789".toList.foldr (fun c r => RegularExpression.plus (RegularExpression.char c) r)
    RegularExpression.zero

/-- The option `(\.|,)?`: a dot, a comma, or nothing. -/
def optionalSeparator : RegularExpression Char :=
  RegularExpression.plus
    (RegularExpression.plus (RegularExpression.char '.') (RegularExpression.char ','))
    RegularExpression.epsilon

/-- The regular expression `/^\d*(\.|,)?\d*$/`; the anchors `^` and `$` (no `m` flag) make
`test` a match of the whole string. -/
def tradeVolumePattern : RegularExpression Char :=
  RegularExpression.comp (RegularExpression.star digitClass)
    (RegularExpression.comp optionalSeparator (RegularExpression.star digitClass))

/-- The call `/^\d*(\.|,)?\d*$/.test(value)`. -/
def tradeVolumePatternTest (value : String) : Bool :=
  tradeVolumePattern.rmatch value.data

/-- The pattern in the words of the specification: zero or more digits, an optional single
`.` or `,`, zero or more digits. -/
def IsPartialDecimal (text : List Char) : Prop :=
  ∃ ds₁ sep ds₂ : List Char, text = ds₁ ++ sep ++ ds₂ ∧
    (∀ c ∈ ds₁, isDecimalDigit c = true) ∧ (sep = [] ∨ sep = ['.'] ∨ sep = [',']) ∧
    (∀ c ∈ ds₂, isDecimalDigit c = true)

/-! ## Workflow state -/

/-- A JavaScript value held by a form field. -/
inductive JSValue where
  | undefined
  | null
  | boolean (b : Bool)
  | number (n : JSNumber)
  | string (s : String)
  deriving DecidableEq

/-- An object with string values, as the list of its own properties in insertion order. -/
abbrev JSObject := List (String × String)

/-- Property read `obj[key]`; `none` is `undefined`. -/
def JSObject.get (obj : JSObject) (key : String) : Option String :=
  (obj.find? (fun kv => kv.1 == key)).map (fun kv => kv.2)

/-- The object `{...obj, [key]: value}`: an existing property keeps its place and takes the
new value, a new property is added last. -/
def JSObject.set : JSObject → String → String → JSObject
  | [], key, value => [(key, value)]
  | (k, v) :: rest, key, value =>
    if k == key then (k, value) :: rest else (k, v) :: JSObject.set rest key value

/-- The record handled by the configuration form. -/
structure FormData where
  blockChain : JSValue
  address : JSValue
  deriving DecidableEq

/-- Property read `formData[field]`. -/
def FormData.get (formData : FormData) (field : String) : JSValue :=
  if field = "blockChain" then formData.blockChain
  else if field = "address" then formData.address
  else JSValue.undefined

/-- Modelled from the spec: the constant `BLOCKCHAIN_NETWORKS` of `../../constants`, which is
not among the sources; the data model names the networks `ethereum` and `ledger`. -/
def BLOCKCHAIN_NETWORKS : List String := ["ethereum", "ledger"]

/-- The first entry of `BLOCKCHAIN_NETWORKS`. -/
def ethereumNetwork : String := BLOCKCHAIN_NETWORKS.headD ""

/-- The constant `DEFAULT_FORM_DATA`. -/
def DEFAULT_FORM_DATA : FormData :=
  { blockChain := JSValue.string ethereumNetwork, address := JSValue.string "" }

/-- The component state.  `sortParams` is absent (`none`) until `handleBackClick` adds it. -/
structure State where
  isConfigured : Bool
  isMetaMaskInstalled : Bool
  formData : FormData
  formErrors : JSObject
  filter : Filter
  sortParams : Option JSObject
  deriving DecidableEq

/-- The state set by the constructor; `hasMetaMaskProvider` is the answer of
`web3Service.hasMetaMaskProvider()`. -/
def initialState (hasMetaMaskProvider : Bool) : State :=
  { isConfigured := false
    isMetaMaskInstalled := hasMetaMaskProvider
    formData := DEFAULT_FORM_DATA
    formErrors := [("blockChain", ""), ("address", "")]
    filter := DEFAULT_FILTER
    sortParams := none }

/-! ## Validation -/

/-- The translated labels read by `prepareValidator`. -/
structure Labels where
  metaMaskErrorsBlockChain : String
  metaMaskErrorsAddress : String

/-- A schema entry `{type, required, message}`. -/
structure Rule where
  type : String
  required : Bool
  message : String

/-- An entry of the `errors` array handed to the callback of `validate`. -/
structure ValidationError where
  field : String
  message : String
  deriving DecidableEq

/-- The schema built by `prepareValidator`. -/
def validationSchema (labels : Labels) : List (String × Rule) :=
  [ ("blockChain", { type := "string", required := true, message := labels.metaMaskErrorsBlockChain }),
    ("address", { type := "string", required := true, message := labels.metaMaskErrorsAddress }) ]

/-- A value that counts as empty or absent for a required field. -/
def isEmptyValue : JSValue → Bool
  | JSValue.undefined => true
  | JSValue.null => true
  | JSValue.string s => s.data.isEmpty
  | _ => false

/-- A present value whose runtime type is not the declared one (only `string` is declared). -/
def typeMismatch (type : String) : JSValue → Bool
  | JSValue.undefined => false
  | JSValue.null => false
  | JSValue.string _ => type != "string"
  | _ => type == "string"

/-- Modelled from the spec: failure of one field in the validation engine (the package
`async-validator`, which is not among the sources): a field fails if `required` is true and
the value is empty or absent, or if the runtime type of the value mismatches the declared
type. -/
def fieldFails (rule : Rule) (value : JSValue) : Bool :=
  (rule.required && isEmptyValue value) || typeMismatch rule.type value

/-- Modelled from the spec: the method `validate` of the validation engine (the package
`async-validator`, which is not among the sources).  All fields are validated independently;
the result collects every failing field with the configured message of that field.  The
callback receives `null` (`none`) when no field fails. -/
def validate (schema : List (String × Rule)) (record : FormData) : Option (List ValidationError) :=
  let errors := (schema.filter (fun fr => fieldFails fr.2 (record.get fr.1))).map
    (fun fr => ({ field := fr.1, message := fr.2.message } : ValidationError))
  if errors.isEmpty then none else some errors

/-! ## Handlers -/

/-- The method `handleBackClick`. -/
def handleBackClick (state : State) : State :=
  { state with
    isConfigured := false
    formData := DEFAULT_FORM_DATA
    filter := DEFAULT_FILTER
    sortParams := some [] }

/-- The method `handleDateFilterChange` for the payload `{ value: timestamp }`: the remainder
`timestamp % DAY_SECONDS` is exact, the difference is rounded to a Number. -/
def handleDateFilterChange (state : State) (timestamp : Int) : State :=
  { state with
    filter :=
      { state.filter with
        offerIssued := some (roundInteger (timestamp - Int.tmod timestamp DAY_SECONDS)) } }

/-- The method `handleTradeVolumeChange` for an event whose `target.value` is `value`. -/
def handleTradeVolumeChange (state : State) (value : String) : State :=
  if tradeVolumePatternTest value then
    { state with filter := { state.filter with energyAvailable := value } }
  else state

/-- The method `handleSubmit`: the callback of `validate` runs on the spot. -/
def handleSubmit (labels : Labels) (state : State) (formData : FormData) : State :=
  match validate (validationSchema labels) formData with
  | some errors =>
    { state with
      formErrors := errors.foldl (fun errorsState e => errorsState.set e.field e.message) [] }
  | none =>
    { state with
      isConfigured := true
      formData := formData
      formErrors := [("blockChain", ""), ("address", "")] }

/-! ## Reactions to an update: `componentDidUpdate` -/

/-- An error object of the store: `ref` is its identity, `message` its message. -/
structure ErrorObject where
  ref : Nat
  message : String
  deriving DecidableEq

/-- The props read by `componentDidUpdate`; `error = none` is `null`. -/
structure Props where
  loading : Bool
  error : Option ErrorObject
  deriving DecidableEq

/-- A call issued by `componentDidUpdate`. -/
inductive Effect where
  | getOpenTradePositions (address : JSValue)
  | pushNotification (message : String) (type : String)
  | setupLoaderVisibility (loading : Bool)
  deriving DecidableEq

/-- The comparison `error !== prevProps.error`: identity of objects, `null` equal to itself. -/
def errorDiffers : Option ErrorObject → Option ErrorObject → Bool
  | some e, some e' => e.ref != e'.ref
  | none, none => false
  | _, _ => true

/-- The method `componentDidUpdate(prevProps, prevState)`, as the calls it issues in order;
`props` and `state` are `this.props` and `this.state`. -/
def componentDidUpdate (props : Props) (state : State) (prevProps : Props) (prevState : State) :
    List Effect :=
  let configured := state.isConfigured && (state.isConfigured != prevState.isConfigured)
  (if state.isMetaMaskInstalled && configured then
      [Effect.getOpenTradePositions state.formData.address]
    else []) ++
  (match props.error with
    | some error =>
      if !props.loading && errorDiffers (some error) prevProps.error then
        [Effect.pushNotification error.message "error"]
      else []
    | none => []) ++
  [Effect.setupLoaderVisibility props.loading]

/-- The trade-position fetches among the calls issued. -/
def tradePositionFetches (effects : List Effect) : List JSValue :=
  effects.filterMap (fun e => match e with
    | Effect.getOpenTradePositions address => some address
    | _ => none)

/-! ## The filter engine in the words of the specification -/

/-- The decimal value of a text `digits`, `digits . digits` or `digits , digits` in the words
of the specification: `,` is read as `.`, the digits before the separator are the integer
part and the `n` digits after it count in units of `10^-n`. -/
def decimalValue (text : List Char) : ℚ :=
  let normalized := text.map (fun c => if c = ',' then '.' else c)
  let integerPart := normalized.takeWhile (fun c => c != '.')
  let fractionPart := (normalized.dropWhile (fun c => c != '.')).drop 1
  (Nat.ofDigits 10 (integerPart.reverse.map digitValue) : ℚ) +
    (Nat.ofDigits 10 (fractionPart.reverse.map digitValue) : ℚ) / 10 ^ fractionPart.length

/-- The date filter in the words of the specification: when `filter.offerIssued` is
non-empty, keep only positions whose `offerIssuedTimestamp` lies in
`(offerIssued, offerIssued + 86400]`; an absent value passes everything. -/
def dateCondition (filter : Filter) (tradePosition : TradePosition) : Bool :=
  match filter.offerIssued with
  | some offerIssued =>
    decide (offerIssued < tradePosition.offerIssuedTimestamp) &&
      decide (tradePosition.offerIssuedTimestamp ≤ offerIssued + 86400)
  | none => true

/-- The volume filter in the words of the specification: when `filter.energyAvailable` is
non-empty, it is parsed as a decimal number with `.` or `,` as the separator, and only
positions whose `energyAvailableFloat` is `>=` the parsed value (as a Number) are kept; an
absent value passes everything. -/
def volumeCondition (rnd : ℚ → JSNumber) (filter : Filter) (tradePosition : TradePosition) : Bool :=
  if filter.energyAvailable.data = [] then true
  else tradePosition.energyAvailableFloat.ge (rnd (decimalValue filter.energyAvailable.data))

/-- The contract `applyFilters(positions, filter, limit)` of the specification: the positions
that pass both filters, truncated to the first `limit` entries. -/
def applyFilters (rnd : ℚ → JSNumber) (limit : Nat) (filter : Filter)
    (positions : List TradePosition) : List TradePosition :=
  (positions.filter (fun p => dateCondition filter p && volumeCondition rnd filter p)).take limit

/-! ## Props from the store: `mapStateToProps` -/

/-- A slice `state.Transactions.<name>` of the store, as far as `mapStateToProps` reads its
`loading` and `error`. -/
structure StoreSlice where
  loading : Bool
  error : Option ErrorObject
  deriving DecidableEq

/-- The `loading` and `error` props computed by `mapStateToProps`: `a || b` on the two
slices (an error object is truthy, `null` is falsy). -/
def mapStateToProps (openTradePositions availableAddresses : StoreSlice) : Props :=
  { loading := openTradePositions.loading || availableAddresses.loading
    error :=
      match openTradePositions.error with
      | some e => some e
      | none => availableAddresses.error }

/-- The notifications among the calls issued, each as `(message, type)`. -/
def pushedNotifications (effects : List Effect) : List (String × String) :=
  effects.filterMap (fun e => match e with
    | Effect.pushNotification message type => some (message, type)
    | _ => none)

/-! ## The workflow as a transition system -/

/-- A user action handled by the container. -/
inductive Action where
  | submit (formData : FormData)
  | back
  | dateFilterChange (timestamp : Int)
  | tradeVolumeChange (value : String)
  deriving DecidableEq

/-- One action applied to the state by its handler. -/
def step (labels : Labels) (state : State) : Action → State
  | Action.submit formData => handleSubmit labels state formData
  | Action.back => handleBackClick state
  | Action.dateFilterChange timestamp => handleDateFilterChange state timestamp
  | Action.tradeVolumeChange value => handleTradeVolumeChange state value

/-- The state after a sequence of actions. -/
def run (labels : Labels) (state : State) (actions : List Action) : State :=
  actions.foldl (step labels) state

/-- A value that is a non-empty string. -/
def isNonEmptyString : JSValue → Bool
  | JSValue.string s => !s.data.isEmpty
  | _ => false

/-- A record whose `blockChain` and `address` are non-empty strings. -/
def isValidRecord (formData : FormData) : Bool :=
  isNonEmptyString formData.blockChain && isNonEmptyString formData.address

end DirectTrading

/-! # Transactions service: `src/services/api/transactions.js` -/

namespace Transactions

open DirectTrading

/-- JavaScript truthiness: `undefined`, `null`, `false`, `0`, `NaN` and `''` are falsy. -/
def truthy : JSValue → Bool
  | JSValue.undefined => false
  | JSValue.null => false
  | JSValue.boolean b => b
  | JSValue.number JSNumber.nan => false
  | JSValue.number (JSNumber.fin q) => decide (q ≠ 0)
  | JSValue.number _ => true
  | JSValue.string s => !s.data.isEmpty

/-- The operator `a || b`: `a` when it is truthy, `b` otherwise. -/
def logicalOr (a b : JSValue) : JSValue :=
  if truthy a then a else b

/-- The object assigned to `tx.details`. -/
structure Details where
  hash : JSValue
  price : JSValue
  amount : JSValue
  from_ : JSValue
  url : JSValue
  deriving DecidableEq

/-- A transaction record of `getHistory`: the five fields read by `getRecentTransactions`
(`undefined` when absent; `from_` is the field `from`), its other fields, and `details`
(`none` until it is assigned). -/
structure Transaction where
  transactionHash : JSValue
  price : JSValue
  energyAmount : JSValue
  from_ : JSValue
  detailsLink : JSValue
  other : List (String × JSValue)
  details : Option Details
  deriving DecidableEq

/-- The body of the `forEach` callback: the assignment `tx.details = {...}`. -/
def assignDetails (tx : Transaction) : Transaction :=
  { tx with
    details := some
      { hash := logicalOr tx.transactionHash (JSValue.string "--")
        price := logicalOr tx.price (JSValue.number (JSNumber.fin 0))
        amount := logicalOr tx.energyAmount (JSValue.number (JSNumber.fin 0))
        from_ := logicalOr tx.from_ (JSValue.string "--")
        url := logicalOr tx.detailsLink (JSValue.string "") } }

/-- The `data` of the `getBalance` response. -/
structure BalanceData where
  balance : JSValue
  lastUpdatedAt : JSValue

/-- The object `currentBalance`. -/
structure CurrentBalance where
  balance : JSValue
  date : JSValue
  deriving DecidableEq

/-- The `data` of the `getHistory` response: `transactions` is `none` when the property is
absent, `currentBalance` is `none` until it is assigned. -/
structure HistoryData where
  transactions : Option (List Transaction)
  currentBalance : Option CurrentBalance
  deriving DecidableEq

/-- The two `then` callbacks of `getRecentTransactions` on the data of the two responses;
`dateNow` is the value of `Date.now()`. -/
def getRecentTransactions (dateNow : JSValue) (balanceData : BalanceData)
    (historyData : HistoryData) : HistoryData :=
  let currentBalance : CurrentBalance :=
    { balance := logicalOr balanceData.balance (JSValue.number (JSNumber.fin 0))
      date := logicalOr balanceData.lastUpdatedAt dateNow }
  let transactions := historyData.transactions.getD []
  { transactions := some (transactions.map assignDetails)
    currentBalance := some currentBalance }

end Transactions

namespace DirectTrading

/-! ## Theorems -/

/-- C1: for every list of trade positions, every filter and every limit, the list passed to
`TradePositionsList` is a subsequence of the input in the original order and its length is
at most the limit. -/
theorem C1_filtered_sublist_and_bounded (rnd : ℚ → JSNumber) (TRADE_POSITIONS_LIMIT : Nat)
    (filter : Filter) (tradePositions : List TradePosition) :
    List.Sublist
        (renderOpenTradePositionsTable rnd TRADE_POSITIONS_LIMIT filter tradePositions).tradePositions
        tradePositions ∧
      (renderOpenTradePositionsTable rnd TRADE_POSITIONS_LIMIT filter
        tradePositions).tradePositions.length ≤ TRADE_POSITIONS_LIMIT := by
  constructor
  · exact (List.take_sublist _ _).trans (List.filter_sublist _)
  · simp only [renderOpenTradePositionsTable, filteredTradePositions, List.length_take]
    exact Nat.min_le_left _ _

/-! ### Integers that are Numbers -/

/-- An integer of magnitude below `2 ^ 53` is a Number: it is not rounded. -/
theorem roundInteger_of_lt (n : Int) (h : n.natAbs < 2 ^ 53) : roundInteger n = n := by
  unfold roundInteger
  rw [if_pos h]

/-- A non-negative integer below `2 ^ 60` that is a multiple of 128 is a Number. -/
theorem roundInteger_of_dvd (n : Int) (h0 : 0 ≤ n) (hlt : n < 2 ^ 60) (hdvd : (128 : Int) ∣ n) :
    roundInteger n = n := by
  unfold roundInteger
  split
  · rfl
  · next hbig =>
    obtain ⟨N, rfl⟩ := Int.eq_ofNat_of_zero_le h0
    simp only [Int.natAbs_ofNat] at hbig ⊢
    have hN : N < 2 ^ 60 := by exact_mod_cast hlt
    have hNd : 128 ∣ N := by exact_mod_cast hdvd
    have hpos : N ≠ 0 := by
      intro h
      subst h
      exact hbig (by norm_num)
    have hlog : Nat.log 2 N < 60 := Nat.log_lt_of_lt_pow hpos hN
    have hs : Nat.log 2 N - 52 ≤ 7 := by omega
    have hpd : 2 ^ (Nat.log 2 N - 52) ∣ N :=
      Dvd.dvd.trans (pow_dvd_pow 2 hs) (by simpa using hNd)
    have hmod : N % 2 ^ (Nat.log 2 N - 52) = 0 := Nat.mod_eq_zero_of_dvd hpd
    have hb : 0 < 2 ^ (Nat.log 2 N - 52) := Nat.two_pow_pos _
    have hnear : nearestTiesToEven N (2 ^ (Nat.log 2 N - 52)) = N / 2 ^ (Nat.log 2 N - 52) := by
      simp only [nearestTiesToEven, hmod]
      rw [if_neg]
      omega
    rw [hnear, Nat.div_mul_cancel hpd]
    have hsign : Int.sign (N : Int) = 1 := Int.sign_eq_one_of_pos (by exact_mod_cast Nat.pos_of_ne_zero hpos)
    rw [hsign, one_mul]

/-! ### The date window of the filter callback -/

/-- With a non-zero bucket whose day end is below `2 ^ 53`, a position that passes the filter
callback lies in the window `(offerIssued, offerIssued + 86400]`. -/
theorem isPass_window (rnd : ℚ → JSNumber) (filter : Filter) (p : TradePosition)
    (offerIssued : Int) (hset : filter.offerIssued = some offerIssued) (hne : offerIssued ≠ 0)
    (hsmall : (offerIssued + 86400).natAbs < 2 ^ 53) (hpass : isPass rnd filter p = true) :
    offerIssued < p.offerIssuedTimestamp ∧ p.offerIssuedTimestamp ≤ offerIssued + 86400 := by
  have hr : roundInteger (offerIssued + 86400) = offerIssued + 86400 :=
    roundInteger_of_lt _ hsmall
  unfold isPass at hpass
  simp only [hset, DAY_SECONDS, hr, ne_eq, hne, not_false_eq_true, if_true,
    Bool.true_and] at hpass
  split at hpass
  · simp only [Bool.and_eq_true, decide_eq_true_eq] at hpass
    exact ⟨hpass.1.1, hpass.1.2⟩
  · simpa using hpass

/-- With a non-zero bucket whose day end is below `2 ^ 53`, every position of the filtered
list lies in the window `(offerIssued, offerIssued + 86400]`. -/
theorem filtered_in_window_of_nonzero_bucket (rnd : ℚ → JSNumber) (TRADE_POSITIONS_LIMIT : Nat)
    (filter : Filter) (tradePositions : List TradePosition) (offerIssued : Int)
    (hset : filter.offerIssued = some offerIssued) (hne : offerIssued ≠ 0)
    (hsmall : (offerIssued + 86400).natAbs < 2 ^ 53) (p : TradePosition)
    (hp : p ∈ filteredTradePositions rnd TRADE_POSITIONS_LIMIT filter tradePositions) :
    offerIssued < p.offerIssuedTimestamp ∧ p.offerIssuedTimestamp ≤ offerIssued + 86400 :=
  isPass_window rnd filter p offerIssued hset hne hsmall
    (List.mem_filter.mp (List.mem_of_mem_take hp)).2

/-- C2 (the code at the failing input): a timestamp inside the first day is stored by
`handleDateFilterChange` as the bucket `0`, and with `filter.offerIssued = 0` a position
whose `offerIssuedTimestamp` is `200000`, outside `(0, 86400]`, is kept. -/
theorem C2_zero_bucket_keeps_position_outside_window :
    (handleDateFilterChange (initialState true) 3600).filter =
        { energyAvailable := "", offerIssued := some 0 } ∧
      filteredTradePositions JSNumber.fin 50 { energyAvailable := "", offerIssued := some 0 }
          [{ offerIssuedTimestamp := 200000, energyAvailableFloat := JSNumber.fin 1, other := "" }] =
        [{ offerIssuedTimestamp := 200000, energyAvailableFloat := JSNumber.fin 1, other := "" }] ∧
      ¬ ((0 : Int) < 200000 ∧ (200000 : Int) ≤ 0 + 86400) := by
  refine ⟨rfl, rfl, by decide⟩

/-- C3: with `filter.offerIssued = 100*86400` and no volume filter, a position whose
`offerIssuedTimestamp` is `100*86400` fails the filter and is in no filtered list; a position
whose `offerIssuedTimestamp` is `101*86400` passes the filter, and is in the filtered list of
every list that holds it and has no more passing positions than the limit. -/
theorem C3_date_boundary (rnd : ℚ → JSNumber) (TRADE_POSITIONS_LIMIT : Nat)
    (tradePositions : List TradePosition) (p : TradePosition) :
    (p.offerIssuedTimestamp = 100 * 86400 →
        isPass rnd { energyAvailable := "", offerIssued := some (100 * 86400) } p = false ∧
        p ∉ filteredTradePositions rnd TRADE_POSITIONS_LIMIT
          { energyAvailable := "", offerIssued := some (100 * 86400) } tradePositions) ∧
      (p.offerIssuedTimestamp = 101 * 86400 →
        isPass rnd { energyAvailable := "", offerIssued := some (100 * 86400) } p = true ∧
        (p ∈ tradePositions →
          (tradePositions.filter
            (isPass rnd { energyAvailable := "", offerIssued := some (100 * 86400) })).length
              ≤ TRADE_POSITIONS_LIMIT →
          p ∈ filteredTradePositions rnd TRADE_POSITIONS_LIMIT
            { energyAvailable := "", offerIssued := some (100 * 86400) } tradePositions)) := by
  constructor
  · intro h
    have hf : isPass rnd { energyAvailable := "", offerIssued := some (100 * 86400) } p = false := by
      simp [isPass, h, DAY_SECONDS]
    refine ⟨hf, fun hmem => ?_⟩
    have := (List.mem_filter.mp (List.mem_of_mem_take hmem)).2
    rw [hf] at this
    exact Bool.noConfusion this
  · intro h
    have hr : roundInteger 8726400 = 8726400 := by decide
    have ht : isPass rnd { energyAvailable := "", offerIssued := some (100 * 86400) } p = true := by
      simp [isPass, h, DAY_SECONDS, hr]
    refine ⟨ht, fun hmem hlen => ?_⟩
    unfold filteredTradePositions
    rw [List.take_of_length_le hlen]
    exact List.mem_filter.mpr ⟨hmem, ht⟩

/-- C3 on the list of one position at `100*86400` and one at `101*86400`, limit 50. -/
theorem C3_date_boundary_witness :
    ((⟨100 * 86400, JSNumber.nan, "a"⟩ : TradePosition) ∉
        filteredTradePositions JSNumber.fin 50
          { energyAvailable := "", offerIssued := some (100 * 86400) }
          [⟨100 * 86400, JSNumber.nan, "a"⟩, ⟨101 * 86400, JSNumber.nan, "b"⟩]) ∧
      ((⟨101 * 86400, JSNumber.nan, "b"⟩ : TradePosition) ∈
        filteredTradePositions JSNumber.fin 50
          { energyAvailable := "", offerIssued := some (100 * 86400) }
          [⟨100 * 86400, JSNumber.nan, "a"⟩, ⟨101 * 86400, JSNumber.nan, "b"⟩]) :=
  ⟨((C3_date_boundary JSNumber.fin 50
        [⟨100 * 86400, JSNumber.nan, "a"⟩, ⟨101 * 86400, JSNumber.nan, "b"⟩]
        ⟨100 * 86400, JSNumber.nan, "a"⟩).1 rfl).2,
    ((C3_date_boundary JSNumber.fin 50
        [⟨100 * 86400, JSNumber.nan, "a"⟩, ⟨101 * 86400, JSNumber.nan, "b"⟩]
        ⟨101 * 86400, JSNumber.nan, "b"⟩).2 rfl).2 (by simp) (by decide)⟩

/-! ### The pattern of the live-input guard -/

/-- A character of the class `\d` is one of the ten digits. -/
theorem char_of_toNat_range (c : Char) (h : isDecimalDigit c = true) :
    c ∈ "0123456789".toList := by
  simp only [isDecimalDigit, Bool.and_eq_true, decide_eq_true_eq] at h
  have hc : c = Char.ofNat c.toNat := (Char.ofNat_toNat c).symm
  obtain ⟨n, hn⟩ : ∃ n, c.toNat = n := ⟨_, rfl⟩
  rw [hn] at h hc
  have h1 : 48 ≤ n := h.1
  have h2 : n ≤ 57 := h.2
  subst hc
  interval_cases n <;> decide

/-- The class `\d` matches exactly the one-character texts made of a digit. -/
theorem digitClass_rmatch_iff (x : List Char) :
    digitClass.rmatch x = true ↔ ∃ c, x = [c] ∧ isDecimalDigit c = true := by
  have hunf : digitClass =
      RegularExpression.char '0' + (RegularExpression.char '1' + (RegularExpression.char '2' +
      (RegularExpression.char '3' + (RegularExpression.char '4' + (RegularExpression.char '5' +
      (RegularExpression.char '6' + (RegularExpression.char '7' + (RegularExpression.char '8' +
      (RegularExpression.char '9' + 0))))))))) := rfl
  rw [hunf]
  simp only [RegularExpression.add_rmatch_iff, RegularExpression.char_rmatch_iff,
    RegularExpression.zero_rmatch]
  constructor
  · intro h
    rcases h with h | h | h | h | h | h | h | h | h | h | h
    all_goals first
      | exact ⟨_, h, by decide⟩
      | exact absurd h (by decide)
  · rintro ⟨c, rfl, hc⟩
    have := char_of_toNat_range c hc
    simp only [String.toList, List.mem_cons, List.mem_singleton] at this
    simp only [List.cons.injEq, and_true]
    rcases this with h | h | h | h | h | h | h | h | h | h | h <;> simp_all


/-- The expression `\d*` matches exactly the texts made of digits. -/
theorem digitStar_rmatch_iff (x : List Char) :
    (RegularExpression.star digitClass).rmatch x = true ↔ ∀ c ∈ x, isDecimalDigit c = true := by
  rw [RegularExpression.star_rmatch_iff]
  constructor
  · rintro ⟨S, rfl, hS⟩ c hc
    obtain ⟨t, ht, hct⟩ := List.mem_flatten.mp hc
    obtain ⟨d, rfl, hd⟩ := (digitClass_rmatch_iff t).mp (hS t ht).2
    rw [List.mem_singleton.mp hct]
    exact hd
  · intro h
    refine ⟨x.map (fun c => [c]), ?_, ?_⟩
    · induction x with
      | nil => rfl
      | cons a l ih =>
        simp only [List.map_cons, List.flatten_cons, List.singleton_append, List.cons.injEq,
          true_and]
        exact ih (fun c hc => h c (List.mem_cons_of_mem _ hc))
    · intro t ht
      obtain ⟨c, hc, rfl⟩ := List.mem_map.mp ht
      exact ⟨by simp, (digitClass_rmatch_iff [c]).mpr ⟨c, rfl, h c hc⟩⟩

/-- The expression `(\.|,)?` matches exactly the empty text, `.` and `,`. -/
theorem optionalSeparator_rmatch_iff (x : List Char) :
    optionalSeparator.rmatch x = true ↔ x = [] ∨ x = ['.'] ∨ x = [','] := by
  have hunf : optionalSeparator =
      (RegularExpression.char '.' + RegularExpression.char ',') + 1 := rfl
  rw [hunf]
  simp only [RegularExpression.add_rmatch_iff, RegularExpression.char_rmatch_iff,
    RegularExpression.one_rmatch_iff]
  tauto

/-- The pattern of the guard matches exactly the texts of the specified shape. -/
theorem tradeVolumePattern_rmatch_iff (x : List Char) :
    tradeVolumePattern.rmatch x = true ↔ IsPartialDecimal x := by
  have hunf : tradeVolumePattern =
      RegularExpression.star digitClass * (optionalSeparator * RegularExpression.star digitClass) :=
    rfl
  rw [hunf]
  simp only [RegularExpression.mul_rmatch_iff, digitStar_rmatch_iff, optionalSeparator_rmatch_iff,
    IsPartialDecimal]
  constructor
  · rintro ⟨t, u, rfl, ht, v, w, rfl, hv, hw⟩
    exact ⟨t, v, w, by simp, ht, hv, hw⟩
  · rintro ⟨t, v, w, rfl, ht, hv, hw⟩
    exact ⟨t, v ++ w, by simp, ht, v, w, rfl, hv, hw⟩

/-! ### Parsing the volume text -/

/-- The left-to-right value of a digit text is the value of its digits in base ten. -/
theorem digitsValue_eq_ofDigits (ds : List Char) :
    digitsValue ds = Nat.ofDigits 10 (ds.reverse.map digitValue) := by
  induction ds using List.reverseRecOn with
  | nil => rfl
  | append_singleton l a ih =>
    simp only [digitsValue] at ih
    simp only [digitsValue, List.foldl_append, List.foldl_cons, List.foldl_nil, ih,
      List.reverse_append, List.reverse_cons, List.reverse_nil, List.nil_append,
      List.singleton_append, List.map_cons, Nat.ofDigits_cons]
    ring

/-- A digit is no separator, no sign, not the `I` of `Infinity` and no white space. -/
theorem digit_not_special {c : Char} (h : isDecimalDigit c = true) :
    c ≠ ',' ∧ c ≠ '.' ∧ c ≠ '+' ∧ c ≠ '-' ∧ c ≠ 'I' ∧ isStrWhiteSpaceChar c = false := by
  have hm := char_of_toNat_range c h
  simp only [String.toList, List.mem_cons, List.mem_singleton] at hm
  rcases hm with h | h | h | h | h | h | h | h | h | h | h
  all_goals first
    | (subst h; decide)
    | exact absurd h (List.not_mem_nil _)

/-- The replacement of the first comma skips leading digits. -/
theorem replaceFirstComma_digits_append (ds rest : List Char)
    (h : ∀ c ∈ ds, isDecimalDigit c = true) :
    replaceFirstComma (ds ++ rest) = ds ++ replaceFirstComma rest := by
  induction ds with
  | nil => rfl
  | cons a l ih =>
    have ha := (digit_not_special (h a (List.mem_cons_self _ _))).1
    simp only [List.cons_append, replaceFirstComma, ha, if_false, List.cons.injEq, true_and]
    exact ih (fun c hc => h c (List.mem_cons_of_mem _ hc))


/-- On a text that starts with neither white space nor a sign, `parseFloat` reads an unsigned
literal. -/
theorem parseFloat_of_plain_head (rnd : ℚ → JSNumber) (c : Char) (cs : List Char)
    (hws : isStrWhiteSpaceChar c = false) (hplus : c ≠ '+') (hminus : c ≠ '-') :
    parseFloat rnd (c :: cs) = strUnsignedDecimalLiteral rnd (c :: cs) := by
  unfold parseFloat
  have hd : List.dropWhile isStrWhiteSpaceChar (c :: cs) = c :: cs := by
    simp [List.dropWhile, hws]
  rw [hd]
  split
  · next cs' heq => exact absurd (List.cons.inj heq).1 hplus
  · next cs' heq => exact absurd (List.cons.inj heq).1 hminus
  · rfl

/-- A text that does not start with `I` does not start with `Infinity`. -/
theorem not_infinity_head (c : Char) (cs : List Char) (h : c ≠ 'I') :
    "Infinity".toList.isPrefixOf (c :: cs) = false := by
  have : "Infinity".toList = 'I' :: "nfinity".toList := rfl
  rw [this, List.isPrefixOf]
  have hc : ('I' == c) = false := by
    simp only [beq_eq_false_iff_ne, ne_eq]
    exact fun h' => h h'.symm
  simp [hc]

/-- A non-empty text of digits is read as its integer value. -/
theorem strUnsigned_digits (rnd : ℚ → JSNumber) (ds : List Char)
    (h : ∀ c ∈ ds, isDecimalDigit c = true) (hne : ds ≠ []) :
    strUnsignedDecimalLiteral rnd ds = rnd (digitsValue ds : ℚ) := by
  obtain ⟨c, cs, rfl⟩ := List.exists_cons_of_ne_nil hne
  have hc := digit_not_special (h c (List.mem_cons_self _ _))
  unfold strUnsignedDecimalLiteral
  rw [not_infinity_head c cs hc.2.2.2.2.1]
  have ht : List.takeWhile isDecimalDigit (c :: cs) = c :: cs :=
    List.takeWhile_eq_self_iff.mpr h
  have hd : List.dropWhile isDecimalDigit (c :: cs) = [] :=
    List.dropWhile_eq_nil_iff.mpr h
  simp [ht, hd, exponentPart]

/-- A text `digits . digits` with at least one digit is read as integer part plus fraction. -/
theorem strUnsigned_digits_dot_digits (rnd : ℚ → JSNumber) (ds₁ ds₂ : List Char)
    (h₁ : ∀ c ∈ ds₁, isDecimalDigit c = true) (h₂ : ∀ c ∈ ds₂, isDecimalDigit c = true)
    (hne : ds₁ ++ ds₂ ≠ []) :
    strUnsignedDecimalLiteral rnd (ds₁ ++ '.' :: ds₂) =
      rnd ((digitsValue ds₁ : ℚ) + (digitsValue ds₂ : ℚ) / 10 ^ ds₂.length) := by
  have hhead : "Infinity".toList.isPrefixOf (ds₁ ++ '.' :: ds₂) = false := by
    cases ds₁ with
    | nil => exact not_infinity_head '.' ds₂ (by decide)
    | cons a l =>
      exact not_infinity_head a _ (digit_not_special (h₁ a (List.mem_cons_self _ _))).2.2.2.2.1
  have hdot : ¬ (isDecimalDigit '.' = true) := by decide
  have ht : List.takeWhile isDecimalDigit (ds₁ ++ '.' :: ds₂) = ds₁ := by
    rw [List.takeWhile_append_of_pos h₁, List.takeWhile_cons_of_neg hdot, List.append_nil]
  have hd : List.dropWhile isDecimalDigit (ds₁ ++ '.' :: ds₂) = '.' :: ds₂ := by
    rw [List.dropWhile_append_of_pos h₁, List.dropWhile_cons_of_neg hdot]
  have ht₂ : List.takeWhile isDecimalDigit ds₂ = ds₂ := List.takeWhile_eq_self_iff.mpr h₂
  have hd₂ : List.dropWhile isDecimalDigit ds₂ = [] := List.dropWhile_eq_nil_iff.mpr h₂
  have hemp : (ds₁.isEmpty && ds₂.isEmpty) = false := by
    cases ds₁ with
    | nil =>
      cases ds₂ with
      | nil => exact absurd rfl hne
      | cons _ _ => rfl
    | cons _ _ => rfl
  unfold strUnsignedDecimalLiteral
  rw [hhead]
  simp [ht, hd, ht₂, hd₂, hemp, exponentPart]


/-- Reading `,` as `.` leaves a text of digits as it is. -/
theorem map_comma_digits (ds : List Char) (h : ∀ c ∈ ds, isDecimalDigit c = true) :
    ds.map (fun c => if c = ',' then '.' else c) = ds := by
  induction ds with
  | nil => rfl
  | cons a l ih =>
    have ha := (digit_not_special (h a (List.mem_cons_self _ _))).1
    simp only [List.map_cons, ha, if_false, List.cons.injEq, true_and]
    exact ih (fun c hc => h c (List.mem_cons_of_mem _ hc))

/-- No digit is the dot. -/
theorem digits_ne_dot (ds : List Char) (h : ∀ c ∈ ds, isDecimalDigit c = true) :
    ∀ c ∈ ds, (c != '.') = true := by
  intro c hc
  simpa using (digit_not_special (h c hc)).2.1

/-- The decimal value of a text of digits is its integer value. -/
theorem decimalValue_digits (ds : List Char) (h : ∀ c ∈ ds, isDecimalDigit c = true) :
    decimalValue ds = (digitsValue ds : ℚ) := by
  have ht : List.takeWhile (fun c => c != '.') ds = ds :=
    List.takeWhile_eq_self_iff.mpr (digits_ne_dot ds h)
  have hd : List.dropWhile (fun c => c != '.') ds = [] :=
    List.dropWhile_eq_nil_iff.mpr (digits_ne_dot ds h)
  simp only [decimalValue, map_comma_digits ds h, ht, hd, List.drop_nil, List.reverse_nil,
    List.map_nil, digitsValue_eq_ofDigits]
  simp only [Nat.coe_ofDigits, Nat.cast_ofNat, List.length_nil, pow_zero, div_one,
    List.map_reverse, add_right_eq_self]
  rfl

/-- The decimal value of `digits sep digits` is integer part plus fraction. -/
theorem decimalValue_digits_sep_digits (ds₁ ds₂ : List Char) (s : Char)
    (h₁ : ∀ c ∈ ds₁, isDecimalDigit c = true) (h₂ : ∀ c ∈ ds₂, isDecimalDigit c = true)
    (hs : s = '.' ∨ s = ',') :
    decimalValue (ds₁ ++ s :: ds₂) =
      (digitsValue ds₁ : ℚ) + (digitsValue ds₂ : ℚ) / 10 ^ ds₂.length := by
  have hn : (ds₁ ++ s :: ds₂).map (fun c => if c = ',' then '.' else c) = ds₁ ++ '.' :: ds₂ := by
    rw [List.map_append, List.map_cons, map_comma_digits ds₁ h₁, map_comma_digits ds₂ h₂]
    rcases hs with rfl | rfl <;> simp
  have ht : List.takeWhile (fun c => c != '.') (ds₁ ++ '.' :: ds₂) = ds₁ := by
    rw [List.takeWhile_append_of_pos (digits_ne_dot ds₁ h₁)]
    simp [List.takeWhile_cons]
  have hd : List.dropWhile (fun c => c != '.') (ds₁ ++ '.' :: ds₂) = '.' :: ds₂ := by
    rw [List.dropWhile_append_of_pos (digits_ne_dot ds₁ h₁)]
    simp [List.dropWhile_cons]
  simp only [decimalValue, hn, ht, hd, List.drop_succ_cons, List.drop_zero,
    digitsValue_eq_ofDigits]
  simp [Nat.coe_ofDigits]

/-- On a text of the shape accepted by the guard that holds a digit, `parseFloat` after the
replacement of the comma returns the Number of the decimal value. -/
theorem parseFloat_volume_text (rnd : ℚ → JSNumber) (text : List Char)
    (htext : IsPartialDecimal text) (hdigit : ∃ c ∈ text, isDecimalDigit c = true) :
    parseFloat rnd (replaceFirstComma text) = rnd (decimalValue text) := by
  obtain ⟨ds₁, sep, ds₂, rfl, h₁, hsep, h₂⟩ := htext
  rcases hsep with rfl | rfl | rfl
  · -- digits only
    have hall : ∀ c ∈ ds₁ ++ ds₂, isDecimalDigit c = true := by
      intro c hc
      rcases List.mem_append.mp hc with hc | hc
      · exact h₁ c hc
      · exact h₂ c hc
    simp only [List.append_nil] at *
    have hne : ds₁ ++ ds₂ ≠ [] := by
      obtain ⟨c, hc, _⟩ := hdigit
      exact List.ne_nil_of_mem hc
    have hrep : replaceFirstComma (ds₁ ++ ds₂) = ds₁ ++ ds₂ := by
      have := replaceFirstComma_digits_append (ds₁ ++ ds₂) [] hall
      simpa [replaceFirstComma] using this
    rw [hrep, decimalValue_digits _ hall, ← strUnsigned_digits rnd _ hall hne]
    obtain ⟨c, cs, hcs⟩ := List.exists_cons_of_ne_nil hne
    have hc := digit_not_special (hall c (hcs ▸ List.mem_cons_self _ _))
    rw [hcs]
    exact parseFloat_of_plain_head rnd c cs hc.2.2.2.2.2 hc.2.2.1 hc.2.2.2.1
  all_goals
    have hne : ds₁ ++ ds₂ ≠ [] := by
      obtain ⟨c, hc, hd⟩ := hdigit
      simp only [List.append_assoc, List.singleton_append, List.mem_append, List.mem_cons] at hc
      rcases hc with hc | hc | hc
      · exact List.ne_nil_of_mem (List.mem_append_left _ hc)
      · subst hc; exact absurd hd (by decide)
      · exact List.ne_nil_of_mem (List.mem_append_right _ hc)
    simp only [List.append_assoc, List.singleton_append]
    rw [replaceFirstComma_digits_append _ _ h₁]
    have hrep : ∀ s, s = '.' ∨ s = ',' →
        replaceFirstComma (s :: ds₂) = '.' :: ds₂ := by
      intro s hs
      rcases hs with rfl | rfl
      · have := replaceFirstComma_digits_append ds₂ [] h₂
        simp only [List.append_nil, replaceFirstComma] at this
        simp [replaceFirstComma, this]
      · simp [replaceFirstComma]
    rw [hrep _ (by simp), decimalValue_digits_sep_digits _ _ _ h₁ h₂ (by simp),
      ← strUnsigned_digits_dot_digits rnd _ _ h₁ h₂ hne]
    cases ds₁ with
    | nil => exact parseFloat_of_plain_head rnd '.' ds₂ (by decide) (by decide) (by decide)
    | cons a l =>
      have ha := digit_not_special (h₁ a (List.mem_cons_self _ _))
      exact parseFloat_of_plain_head rnd a _ ha.2.2.2.2.2 ha.2.2.1 ha.2.2.2.1


/-- The decimal value of `"3,5"`. -/
theorem decimalValue_three_comma_five : decimalValue "3,5".data = 7 / 2 := by
  have h := decimalValue_digits_sep_digits ['3'] ['5'] ',' (by decide) (by decide) (Or.inr rfl)
  have h3 : digitsValue ['3'] = 3 := rfl
  have h5 : digitsValue ['5'] = 5 := rfl
  rw [h3, h5] at h
  have ht : "3,5".data = ['3'] ++ ',' :: ['5'] := rfl
  rw [ht, h]
  norm_num

/-- With no date filter and a volume text of the accepted shape that holds a digit, the filter
callback is the comparison with the Number of the decimal value, whatever the conversion. -/
theorem isPass_volume_text (rnd : ℚ → JSNumber) (filter : Filter)
    (hdate : filter.offerIssued = none) (htext : IsPartialDecimal filter.energyAvailable.data)
    (hdigit : ∃ c ∈ filter.energyAvailable.data, isDecimalDigit c = true) (p : TradePosition) :
    isPass rnd filter p =
      p.energyAvailableFloat.ge (rnd (decimalValue filter.energyAvailable.data)) := by
  have hne : filter.energyAvailable.data ≠ [] := by
    obtain ⟨c, hc, _⟩ := hdigit
    exact List.ne_nil_of_mem hc
  simp only [isPass, hdate, hne, ne_eq, not_false_eq_true, if_true, Bool.true_and]
  rw [parseFloat_volume_text rnd _ htext hdigit]

/-- With no date filter and a volume text of the accepted shape that holds a digit, the
filtered list is the first `limit` of the positions at or above the Number of the decimal
value, whatever the conversion. -/
theorem filtered_volume_text (rnd : ℚ → JSNumber) (TRADE_POSITIONS_LIMIT : Nat)
    (filter : Filter) (tradePositions : List TradePosition)
    (hdate : filter.offerIssued = none) (htext : IsPartialDecimal filter.energyAvailable.data)
    (hdigit : ∃ c ∈ filter.energyAvailable.data, isDecimalDigit c = true) :
    filteredTradePositions rnd TRADE_POSITIONS_LIMIT filter tradePositions =
      (tradePositions.filter (fun p =>
        p.energyAvailableFloat.ge (rnd (decimalValue filter.energyAvailable.data)))).take
          TRADE_POSITIONS_LIMIT := by
  unfold filteredTradePositions
  congr 1
  exact List.filter_congr (fun p _ => isPass_volume_text rnd filter hdate htext hdigit p)

/-- The decimal value of `"0.3"`. -/
theorem decimalValue_zero_dot_three : decimalValue "0.3".data = 3 / 10 := by
  have h := decimalValue_digits_sep_digits ['0'] ['3'] '.' (by decide) (by decide) (Or.inl rfl)
  have h0 : digitsValue ['0'] = 0 := rfl
  have h3 : digitsValue ['3'] = 3 := rfl
  rw [h0, h3] at h
  have ht : "0.3".data = ['0'] ++ '.' :: ['3'] := rfl
  rw [ht, h]
  norm_num

set_option exponentiation.threshold 4000
set_option maxRecDepth 4000

/-- The Number for `3/10` is `5404319552844595 / 2 ^ 54`, which is below `3/10`. -/
theorem roundBinary64_three_tenths :
    roundBinary64 (3 / 10) = JSNumber.fin (5404319552844595 / 18014398509481984) := by
  have hn : ((3 : ℚ) / 10).num = 3 := by norm_num
  have hd : ((3 : ℚ) / 10).den = 10 := by norm_num
  have h3 : (3 : ℤ).natAbs = 3 := rfl
  have hlog : Nat.log 2 (3 * 2 ^ 1075 / 10) = 1073 :=
    Nat.log_eq_of_pow_le_of_lt_pow (by norm_num) (by norm_num)
  simp only [roundBinary64, hn, hd, h3, hlog]
  norm_num [nearestTiesToEven]

/-- The Number for `7/2` is `7/2`. -/
theorem roundBinary64_seven_halves : roundBinary64 (7 / 2) = JSNumber.fin (7 / 2) := by
  have hn : ((7 : ℚ) / 2).num = 7 := by norm_num
  have hd : ((7 : ℚ) / 2).den = 2 := by norm_num
  have h7 : (7 : ℤ).natAbs = 7 := rfl
  have hlog : Nat.log 2 (7 * 2 ^ 1075 / 2) = 1076 :=
    Nat.log_eq_of_pow_le_of_lt_pow (by norm_num) (by norm_num)
  simp only [roundBinary64, hn, hd, h7, hlog]
  norm_num [nearestTiesToEven]

/-- C4 (counterexample): with the text `"0.3"`, whose decimal value is `3/10`, a position
whose `energyAvailableFloat` is the Number `5404319552844595 / 2 ^ 54` (what `0.3` denotes in
the language) is kept, although that value is below `3/10`. -/
theorem C4_position_below_decimal_value_kept :
    decimalValue "0.3".data = 3 / 10 ∧
      filteredTradePositions roundBinary64 50 { energyAvailable := "0.3", offerIssued := none }
          [⟨0, JSNumber.fin (5404319552844595 / 18014398509481984), "a"⟩] =
        [⟨0, JSNumber.fin (5404319552844595 / 18014398509481984), "a"⟩] ∧
      ¬ ((3 : ℚ) / 10 ≤ 5404319552844595 / 18014398509481984) := by
  refine ⟨decimalValue_zero_dot_three, ?_, by norm_num⟩
  rw [filtered_volume_text roundBinary64 50 { energyAvailable := "0.3", offerIssued := none } _
    rfl ⟨['0'], ['.'], ['3'], rfl, by decide, by simp, by decide⟩ ⟨'0', by decide, by decide⟩,
    decimalValue_zero_dot_three, roundBinary64_three_tenths]
  have hge : JSNumber.ge (JSNumber.fin (5404319552844595 / 18014398509481984))
      (JSNumber.fin (5404319552844595 / 18014398509481984)) = true := by
    simp [JSNumber.ge]
  simp [List.filter, hge]

/-- C4 (amended): for every filter whose `offerIssued` is empty and whose `energyAvailable` is
a text of digits with an optional single `.` or `,` and at least one digit, the filter callback
keeps a position exactly when its `energyAvailableFloat` is `>=` the Number (binary64, nearest,
ties to even) of the decimal value of the text with `,` read as `.`, so the filtered list is
the first `limit` of those positions; the decimal value of `"3,5"` is `7/2` and `"3,5"` is
parsed as the Number `3.5`. -/
theorem C4_volume_filter (TRADE_POSITIONS_LIMIT : Nat) (filter : Filter)
    (tradePositions : List TradePosition) (hdate : filter.offerIssued = none)
    (htext : IsPartialDecimal filter.energyAvailable.data)
    (hdigit : ∃ c ∈ filter.energyAvailable.data, isDecimalDigit c = true) :
    (∀ p : TradePosition, isPass roundBinary64 filter p =
        p.energyAvailableFloat.ge (roundBinary64 (decimalValue filter.energyAvailable.data))) ∧
      filteredTradePositions roundBinary64 TRADE_POSITIONS_LIMIT filter tradePositions =
        (tradePositions.filter (fun p =>
          p.energyAvailableFloat.ge
            (roundBinary64 (decimalValue filter.energyAvailable.data)))).take
              TRADE_POSITIONS_LIMIT ∧
      decimalValue "3,5".data = 7 / 2 ∧
      parseFloat roundBinary64 (replaceFirstComma "3,5".data) = JSNumber.fin (7 / 2) := by
  have hpass := isPass_volume_text roundBinary64 filter hdate htext hdigit
  refine ⟨hpass, filtered_volume_text roundBinary64 _ filter _ hdate htext hdigit,
    decimalValue_three_comma_five, ?_⟩
  · rw [← roundBinary64_seven_halves, ← decimalValue_three_comma_five]
    exact parseFloat_volume_text roundBinary64 _
      ⟨['3'], [','], ['5'], rfl, by decide, by simp, by decide⟩ ⟨'3', by decide, by decide⟩

/-- C4 (amended) at the text `"3,5"`: of the positions with `energyAvailableFloat` 4 and 3,
the first is kept and the second is not. -/
theorem C4_volume_filter_witness :
    filteredTradePositions roundBinary64 50 { energyAvailable := "3,5", offerIssued := none }
        [⟨0, JSNumber.fin 4, "a"⟩, ⟨0, JSNumber.fin 3, "b"⟩] =
      [⟨0, JSNumber.fin 4, "a"⟩] := by
  have h := C4_volume_filter 50 { energyAvailable := "3,5", offerIssued := none }
    [⟨0, JSNumber.fin 4, "a"⟩, ⟨0, JSNumber.fin 3, "b"⟩] rfl
    ⟨['3'], [','], ['5'], rfl, by decide, by simp, by decide⟩ ⟨'3', by decide, by decide⟩
  rw [h.2.1, h.2.2.1, roundBinary64_seven_halves]
  have h4 : JSNumber.ge (JSNumber.fin 4) (JSNumber.fin (7 / 2)) = true := by
    simp only [JSNumber.ge, decide_eq_true_eq]; norm_num
  have h3 : JSNumber.ge (JSNumber.fin 3) (JSNumber.fin (7 / 2)) = false := by
    simp only [JSNumber.ge, decide_eq_false_iff_not]; norm_num
  simp [List.filter, h4, h3]

/-! ### The filtered list against the filter engine of the specification -/

/-- Where the bucket is absent, or non-zero with a day end below `2 ^ 53`, and the volume text
is empty, or of the accepted shape with a digit, the filtered list of the code is
`applyFilters` of the specification: both conditions in conjunction, truncation afterwards. -/
theorem filteredTradePositions_eq_applyFilters (rnd : ℚ → JSNumber)
    (TRADE_POSITIONS_LIMIT : Nat) (filter : Filter) (tradePositions : List TradePosition)
    (hdate : filter.offerIssued = none ∨
      ∃ offerIssued, filter.offerIssued = some offerIssued ∧ offerIssued ≠ 0 ∧
        (offerIssued + 86400).natAbs < 2 ^ 53)
    (hvolume : filter.energyAvailable.data = [] ∨
      (IsPartialDecimal filter.energyAvailable.data ∧
        ∃ c ∈ filter.energyAvailable.data, isDecimalDigit c = true)) :
    filteredTradePositions rnd TRADE_POSITIONS_LIMIT filter tradePositions =
      applyFilters rnd TRADE_POSITIONS_LIMIT filter tradePositions := by
  unfold filteredTradePositions applyFilters
  congr 1
  apply List.filter_congr
  intro p _
  have hvol : (if filter.energyAvailable.data ≠ [] then
        (true && p.energyAvailableFloat.ge
          (parseFloat rnd (replaceFirstComma filter.energyAvailable.data)))
      else true) = volumeCondition rnd filter p := by
    unfold volumeCondition
    rcases hvolume with hv | ⟨htext, hdigit⟩
    · simp [hv]
    · have hne : filter.energyAvailable.data ≠ [] := by
        obtain ⟨c, hc, _⟩ := hdigit
        exact List.ne_nil_of_mem hc
      simp [hne, parseFloat_volume_text rnd _ htext hdigit]
  rcases hdate with hnone | ⟨offerIssued, hset, hne, hsmall⟩
  · have hd : dateCondition filter p = true := by simp [dateCondition, hnone]
    rw [hd, Bool.true_and, ← hvol]
    simp [isPass, hnone]
  · have hr : roundInteger (offerIssued + 86400) = offerIssued + 86400 :=
      roundInteger_of_lt _ hsmall
    have hd : dateCondition filter p =
        (decide (offerIssued < p.offerIssuedTimestamp) &&
          decide (p.offerIssuedTimestamp ≤ offerIssued + 86400)) := by
      simp [dateCondition, hset]
    rw [hd, ← hvol]
    by_cases hv : filter.energyAvailable.data = [] <;>
      simp [isPass, hset, hne, hr, DAY_SECONDS, hv]

/-- C5 (the code at the failing input, the one of C2): with `filter.offerIssued = 0` and the
position at `200000`, the filtered list of the code holds the position, while the first
`limit` entries of the positions that pass the date condition and the volume condition are
none: `200000` is not in `(0, 86400]`. -/
theorem C5_zero_bucket_differs_from_applyFilters :
    filteredTradePositions roundBinary64 50 { energyAvailable := "", offerIssued := some 0 }
        [{ offerIssuedTimestamp := 200000, energyAvailableFloat := JSNumber.fin 1, other := "" }] =
      [{ offerIssuedTimestamp := 200000, energyAvailableFloat := JSNumber.fin 1, other := "" }] ∧
    applyFilters roundBinary64 50 { energyAvailable := "", offerIssued := some 0 }
        [{ offerIssuedTimestamp := 200000, energyAvailableFloat := JSNumber.fin 1, other := "" }] =
      [] := by
  refine ⟨rfl, rfl⟩

/-- C6: for every state and every input text, the guard of `handleTradeVolumeChange` accepts
the text if and only if it is zero or more digits, an optional single `.` or `,`, and zero or
more digits; an accepted text becomes `filter.energyAvailable` and nothing else changes, a
rejected text leaves the whole state unchanged; `"3,5"` is accepted and `"3.5.2"` is
rejected. -/
theorem C6_trade_volume_guard (state : State) (value : String) :
    (tradeVolumePatternTest value = true ↔ IsPartialDecimal value.data) ∧
      (IsPartialDecimal value.data →
        handleTradeVolumeChange state value =
          { state with filter := { state.filter with energyAvailable := value } }) ∧
      (¬ IsPartialDecimal value.data → handleTradeVolumeChange state value = state) ∧
      handleTradeVolumeChange state "3,5" =
        { state with filter := { state.filter with energyAvailable := "3,5" } } ∧
      handleTradeVolumeChange state "3.5.2" = state := by
  have hiff : tradeVolumePatternTest value = true ↔ IsPartialDecimal value.data :=
    tradeVolumePattern_rmatch_iff value.data
  refine ⟨hiff, ?_, ?_, ?_, ?_⟩
  · intro h
    simp only [handleTradeVolumeChange, hiff.mpr h, if_true]
  · intro h
    have : tradeVolumePatternTest value = false := by
      cases ht : tradeVolumePatternTest value
      · rfl
      · exact absurd (hiff.mp ht) h
    simp [handleTradeVolumeChange, this]
  · have : tradeVolumePatternTest "3,5" = true := by decide
    simp only [handleTradeVolumeChange, this, if_true]
  · have : tradeVolumePatternTest "3.5.2" = false := by decide
    simp [handleTradeVolumeChange, this]

/-- C6 at the texts `"12."` (accepted, stored) and `"1e5"` (rejected, state unchanged) in the
initial state. -/
theorem C6_trade_volume_guard_witness :
    (handleTradeVolumeChange (initialState true) "12.").filter.energyAvailable = "12." ∧
      handleTradeVolumeChange (initialState true) "1e5" = initialState true :=
  ⟨by
      rw [(C6_trade_volume_guard (initialState true) "12.").2.1
        ((tradeVolumePattern_rmatch_iff _).mp (by decide))],
    (C6_trade_volume_guard (initialState true) "1e5").2.2.1
      (fun h => absurd ((tradeVolumePattern_rmatch_iff _).mpr h) (by decide))⟩

/-- C7 (counterexample): at the integer timestamp `10 ^ 21` the difference
`timestamp - timestamp % 86400` is `999999999999999993600`, which is no Number and is rounded
back to `10 ^ 21`: the stored `offerIssued` is `10 ^ 21`, which is neither
`timestamp - (timestamp mod 86400)` nor a multiple of 86400. -/
theorem C7_huge_timestamp_not_floored :
    (handleDateFilterChange (initialState true) 1000000000000000000000).filter.offerIssued =
        some 1000000000000000000000 ∧
      (1000000000000000000000 : Int) - 1000000000000000000000 % 86400 =
        999999999999999993600 ∧
      ¬ ((86400 : Int) ∣ 1000000000000000000000) := by
  have htm : Int.tmod 1000000000000000000000 DAY_SECONDS = 6400 := by decide
  have hlog : Nat.log 2 999999999999999993600 = 69 :=
    Nat.log_eq_of_pow_le_of_lt_pow (by norm_num) (by norm_num)
  have hr : roundInteger 999999999999999993600 = 1000000000000000000000 := by
    have h : (999999999999999993600 : Int).natAbs = 999999999999999993600 := rfl
    simp only [roundInteger, h, hlog]
    decide
  refine ⟨?_, by decide, by decide⟩
  simp only [handleDateFilterChange, htm]
  have hsub : (1000000000000000000000 : Int) - 6400 = 999999999999999993600 := by norm_num
  rw [hsub, hr]

/-- C7 (amended): for every non-negative integer timestamp below `2 ^ 60`,
`handleDateFilterChange` stores `offerIssued = timestamp - (timestamp mod 86400)`, a multiple
of 86400 with `offerIssued <= timestamp < offerIssued + 86400`, and changes nothing else in
the state (`filter.energyAvailable` in particular). -/
theorem C7_date_bucket_floor (state : State) (timestamp : Int) (hts : 0 ≤ timestamp)
    (hlt : timestamp < 2 ^ 60) :
    handleDateFilterChange state timestamp =
        { state with
          filter := { energyAvailable := state.filter.energyAvailable
                      offerIssued := some (timestamp - timestamp % 86400) } } ∧
      (86400 : Int) ∣ timestamp - timestamp % 86400 ∧
      0 ≤ timestamp - timestamp % 86400 ∧
      timestamp - timestamp % 86400 ≤ timestamp ∧
      timestamp < timestamp - timestamp % 86400 + 86400 ∧
      (handleDateFilterChange state timestamp).filter.energyAvailable =
        state.filter.energyAvailable := by
  have hmod : Int.tmod timestamp DAY_SECONDS = timestamp % 86400 :=
    Int.tmod_eq_emod hts (by decide)
  have h1 : 0 ≤ timestamp % 86400 := Int.emod_nonneg _ (by decide)
  have h2 : timestamp % 86400 < 86400 := Int.emod_lt_of_pos _ (by decide)
  have hdvd : (86400 : Int) ∣ timestamp - timestamp % 86400 := Int.dvd_sub_of_emod_eq rfl
  have hround : roundInteger (timestamp - timestamp % 86400) = timestamp - timestamp % 86400 :=
    roundInteger_of_dvd _ (by omega) (by omega)
      (Dvd.dvd.trans (by norm_num : (128 : Int) ∣ 86400) hdvd)
  refine ⟨?_, hdvd, ?_, ?_, ?_, rfl⟩
  · simp only [handleDateFilterChange, hmod, hround]
  · omega
  · omega
  · omega

/-- C7 (amended) at the timestamp `1000000000` in the initial state: the bucket is
`999993600`. -/
theorem C7_date_bucket_floor_witness :
    (handleDateFilterChange (initialState true) 1000000000).filter =
      { energyAvailable := "", offerIssued := some 999993600 } :=
  (C7_date_bucket_floor (initialState true) 1000000000 (by decide) (by decide)).1 ▸ rfl

/-! ### Validation of the configuration form -/

/-- A string other than `""` has a character. -/
theorem string_data_ne_nil {s : String} (h : s ≠ "") : s.data ≠ [] := by
  intro hd
  apply h
  cases s
  simp only at hd
  subst hd
  rfl

/-- A required string field fails unless its value is a non-empty string. -/
theorem fieldFails_required_string (message : String) (value : JSValue) :
    fieldFails { type := "string", required := true, message := message } value =
      (match value with
        | JSValue.string s => s.data.isEmpty
        | _ => true) := by
  cases value <;> simp [fieldFails, isEmptyValue, typeMismatch]

/-- The two branches of `handleSubmit` in terms of the failure of each field. -/
theorem handleSubmit_eq (labels : Labels) (state : State) (formData : FormData) :
    handleSubmit labels state formData =
      if fieldFails (Rule.mk "string" true labels.metaMaskErrorsBlockChain)
            formData.blockChain = true ∨
          fieldFails (Rule.mk "string" true labels.metaMaskErrorsAddress)
            formData.address = true
      then
        { state with
          formErrors :=
            (if fieldFails (Rule.mk "string" true labels.metaMaskErrorsBlockChain)
                  formData.blockChain = true
              then [("blockChain", labels.metaMaskErrorsBlockChain)] else []) ++
            (if fieldFails (Rule.mk "string" true labels.metaMaskErrorsAddress)
                  formData.address = true
              then [("address", labels.metaMaskErrorsAddress)] else []) }
      else
        { state with
          isConfigured := true
          formData := formData
          formErrors := [("blockChain", ""), ("address", "")] } := by
  cases hb : fieldFails (Rule.mk "string" true labels.metaMaskErrorsBlockChain)
      formData.blockChain <;>
    cases ha : fieldFails (Rule.mk "string" true labels.metaMaskErrorsAddress)
      formData.address <;>
    simp [handleSubmit, validate, validationSchema, FormData.get, hb, ha, List.filter,
      JSObject.set]

/-- C8 (counterexample): after the submit of `{blockChain: "", address: "0xabc"}` the new
`formErrors` is `{blockChain: <message>}`: the passing field `address` has no entry, it reads
as `undefined` and not as the empty string that stands for "no error" in the constructor and
in the success branch. -/
theorem C8_passing_field_absent_not_empty :
    (handleSubmit { metaMaskErrorsBlockChain := "Select a blockchain",
                    metaMaskErrorsAddress := "Select an address" } (initialState true)
        { blockChain := JSValue.string "", address := JSValue.string "0xabc" }).formErrors =
      [("blockChain", "Select a blockchain")] ∧
    (handleSubmit { metaMaskErrorsBlockChain := "Select a blockchain",
                    metaMaskErrorsAddress := "Select an address" } (initialState true)
        { blockChain := JSValue.string "", address := JSValue.string "0xabc" }).formErrors.get
          "address" ≠ some "" ∧
    (initialState true).formErrors.get "address" = some "" := by
  decide

/-- C8 (amended): for every submitted record that fails validation against the schema
`{blockChain: required string, address: required string}`, `handleSubmit` replaces
`formErrors` by an object in which each failing field carries its configured message and each
passing field has no entry (it reads as `undefined`: no message), and changes nothing else in
the state, so `isConfigured` stays as it was; for the record
`{blockChain: "", address: "0xabc"}` the new `formErrors` is `{blockChain: <message>}`. -/
theorem C8_submit_invalid_record (labels : Labels) (state : State) (formData : FormData)
    (hfail : validate (validationSchema labels) formData ≠ none) :
    ((handleSubmit labels state formData).formErrors.get "blockChain" =
        if fieldFails (Rule.mk "string" true labels.metaMaskErrorsBlockChain)
            formData.blockChain = true
          then some labels.metaMaskErrorsBlockChain else none) ∧
      ((handleSubmit labels state formData).formErrors.get "address" =
        if fieldFails (Rule.mk "string" true labels.metaMaskErrorsAddress)
            formData.address = true
          then some labels.metaMaskErrorsAddress else none) ∧
      handleSubmit labels state formData =
        { state with formErrors := (handleSubmit labels state formData).formErrors } ∧
      (handleSubmit labels state formData).isConfigured = state.isConfigured ∧
      (handleSubmit labels state
          { blockChain := JSValue.string "", address := JSValue.string "0xabc" }).formErrors =
        [("blockChain", labels.metaMaskErrorsBlockChain)] := by
  have hex : (handleSubmit labels state
      { blockChain := JSValue.string "", address := JSValue.string "0xabc" }).formErrors =
        [("blockChain", labels.metaMaskErrorsBlockChain)] := by
    rw [handleSubmit_eq]
    simp [fieldFails_required_string]
  have hor : fieldFails (Rule.mk "string" true labels.metaMaskErrorsBlockChain)
        formData.blockChain = true ∨
      fieldFails (Rule.mk "string" true labels.metaMaskErrorsAddress)
        formData.address = true := by
    by_contra hcon
    apply hfail
    rw [not_or, Bool.not_eq_true, Bool.not_eq_true] at hcon
    simp [validate, validationSchema, FormData.get, hcon.1, hcon.2, List.filter]
  refine ⟨?_, ?_, ?_, ?_, hex⟩
  all_goals rw [handleSubmit_eq, if_pos hor]
  · cases hb : fieldFails (Rule.mk "string" true labels.metaMaskErrorsBlockChain)
        formData.blockChain <;>
      cases ha : fieldFails (Rule.mk "string" true labels.metaMaskErrorsAddress)
        formData.address <;>
      simp [JSObject.get]
  · cases hb : fieldFails (Rule.mk "string" true labels.metaMaskErrorsBlockChain)
        formData.blockChain <;>
      cases ha : fieldFails (Rule.mk "string" true labels.metaMaskErrorsAddress)
        formData.address <;>
      simp [JSObject.get]

/-- C8 (amended) at the record `{blockChain: "", address: "0xabc"}` in the initial state. -/
theorem C8_submit_invalid_record_witness :
    (handleSubmit { metaMaskErrorsBlockChain := "Select a blockchain",
                    metaMaskErrorsAddress := "Select an address" } (initialState true)
        { blockChain := JSValue.string "", address := JSValue.string "0xabc" }).formErrors.get
          "blockChain" = some "Select a blockchain" ∧
      (handleSubmit { metaMaskErrorsBlockChain := "Select a blockchain",
                      metaMaskErrorsAddress := "Select an address" } (initialState true)
        { blockChain := JSValue.string "", address := JSValue.string "0xabc" }).formErrors.get
          "address" = none ∧
      (handleSubmit { metaMaskErrorsBlockChain := "Select a blockchain",
                      metaMaskErrorsAddress := "Select an address" } (initialState true)
        { blockChain := JSValue.string "", address := JSValue.string "0xabc" }).isConfigured =
          false :=
  have h := C8_submit_invalid_record
    { metaMaskErrorsBlockChain := "Select a blockchain",
      metaMaskErrorsAddress := "Select an address" } (initialState true)
    { blockChain := JSValue.string "", address := JSValue.string "0xabc" } (by decide)
  ⟨h.1, h.2.1, h.2.2.2.1⟩

/-- C9: for every submitted record whose `blockChain` and `address` are non-empty strings,
`handleSubmit` sets `isConfigured` to true, stores the submitted record as `formData`, sets
`formErrors` to `{blockChain: '', address: ''}` and leaves the rest of the state (`filter`,
`isMetaMaskInstalled`, `sortParams`) unchanged. -/
theorem C9_submit_valid_record (labels : Labels) (state : State) (blockChain address : String)
    (hb : blockChain ≠ "") (ha : address ≠ "") :
    validate (validationSchema labels)
        { blockChain := JSValue.string blockChain, address := JSValue.string address } = none ∧
      handleSubmit labels state
          { blockChain := JSValue.string blockChain, address := JSValue.string address } =
        { isConfigured := true
          isMetaMaskInstalled := state.isMetaMaskInstalled
          formData := { blockChain := JSValue.string blockChain, address := JSValue.string address }
          formErrors := [("blockChain", ""), ("address", "")]
          filter := state.filter
          sortParams := state.sortParams } := by
  have hb' := string_data_ne_nil hb
  have ha' := string_data_ne_nil ha
  constructor
  · simp [validate, validationSchema, FormData.get, fieldFails, isEmptyValue, typeMismatch,
      hb', ha']
  · rw [handleSubmit_eq]
    simp [fieldFails_required_string, hb', ha']

/-- C9 at the record `{blockChain: "ethereum", address: "0xabc"}` in the initial state. -/
theorem C9_submit_valid_record_witness :
    handleSubmit { metaMaskErrorsBlockChain := "Select a blockchain",
                   metaMaskErrorsAddress := "Select an address" } (initialState true)
        { blockChain := JSValue.string "ethereum", address := JSValue.string "0xabc" } =
      { isConfigured := true
        isMetaMaskInstalled := true
        formData := { blockChain := JSValue.string "ethereum", address := JSValue.string "0xabc" }
        formErrors := [("blockChain", ""), ("address", "")]
        filter := DEFAULT_FILTER
        sortParams := none } :=
  (C9_submit_valid_record _ (initialState true) "ethereum" "0xabc" (by decide) (by decide)).2

/-- C10: for every update, the trade-position fetches issued by `componentDidUpdate` are
exactly one fetch for the current `formData.address` when the wallet is available,
`isConfigured` is true now and was false in the previous state, and none otherwise; no
fetch is issued when `isConfigured` was already true in the previous state. -/
theorem C10_fetch_on_configured_edge (props prevProps : Props) (state prevState : State) :
    tradePositionFetches (componentDidUpdate props state prevProps prevState) =
        (if state.isMetaMaskInstalled = true ∧ state.isConfigured = true ∧
            prevState.isConfigured = false
          then [state.formData.address] else []) ∧
      tradePositionFetches
          (componentDidUpdate props state prevProps { prevState with isConfigured := true }) =
        [] := by
  constructor
  · rcases hm : state.isMetaMaskInstalled <;> rcases hc : state.isConfigured <;>
      rcases hp : prevState.isConfigured <;> rcases hl : props.loading <;>
      (cases he : props.error with
        | none => simp [componentDidUpdate, tradePositionFetches, hm, hc, hp, he, hl]
        | some e =>
          cases hd : errorDiffers (some e) prevProps.error <;>
            simp [componentDidUpdate, tradePositionFetches, hm, hc, hp, he, hl, hd])
  · rcases hm : state.isMetaMaskInstalled <;> rcases hc : state.isConfigured <;>
      rcases hl : props.loading <;>
      (cases he : props.error with
        | none => simp [componentDidUpdate, tradePositionFetches, hm, hc, he, hl]
        | some e =>
          cases hd : errorDiffers (some e) prevProps.error <;>
            simp [componentDidUpdate, tradePositionFetches, hm, hc, he, hl, hd])

/-! ### Notifications of `componentDidUpdate` -/

/-- The notifications pushed by one update. -/
theorem pushedNotifications_update (props prevProps : Props) (state prevState : State) :
    pushedNotifications (componentDidUpdate props state prevProps prevState) =
      (match props.error with
        | some error =>
          if (!props.loading && errorDiffers (some error) prevProps.error) = true then
            [(error.message, "error")]
          else []
        | none => []) := by
  rcases hm : state.isMetaMaskInstalled <;> rcases hc : state.isConfigured <;>
    rcases hp : prevState.isConfigured <;> rcases hl : props.loading <;>
    (cases he : props.error with
      | none => simp [componentDidUpdate, pushedNotifications, hm, hc, hp, he, hl]
      | some e =>
        cases hd : errorDiffers (some e) prevProps.error <;>
          simp [componentDidUpdate, pushedNotifications, hm, hc, hp, he, hl, hd])

/-- C11 (counterexample): the trade positions are still loading when the fetch of the
addresses fails with a new error object; the props have `loading = true` and the new error,
the previous error was `null`, and `componentDidUpdate` pushes no notification. -/
theorem C11_no_notification_while_loading :
    mapStateToProps { loading := true, error := none }
        { loading := false, error := some { ref := 1, message := "Network Error" } } =
      { loading := true, error := some { ref := 1, message := "Network Error" } } ∧
    errorDiffers (some { ref := 1, message := "Network Error" }) none = true ∧
    pushedNotifications
        (componentDidUpdate
          { loading := true, error := some { ref := 1, message := "Network Error" } }
          (initialState true) { loading := true, error := none } (initialState true)) = [] := by
  refine ⟨rfl, rfl, rfl⟩

/-- C11 (amended): for every update in which the error object is non-null and differs by
identity from the previous error object, `componentDidUpdate` pushes exactly one notification
`{message: error.message, type: 'error'}` when the loading flag is false, and none when the
loading flag is true. -/
theorem C11_notification_on_new_error_unless_loading (props prevProps : Props)
    (state prevState : State) (error : ErrorObject) (herr : props.error = some error)
    (hnew : errorDiffers (some error) prevProps.error = true) :
    pushedNotifications (componentDidUpdate props state prevProps prevState) =
      if props.loading = true then [] else [(error.message, "error")] := by
  rw [pushedNotifications_update, herr]
  cases hl : props.loading <;> simp [hnew]

/-- C11 (amended) at a new error with `loading = false`: one notification is pushed. -/
theorem C11_notification_on_new_error_unless_loading_witness :
    pushedNotifications
        (componentDidUpdate
          { loading := false, error := some { ref := 1, message := "Network Error" } }
          (initialState true) { loading := true, error := none } (initialState true)) =
      [("Network Error", "error")] :=
  C11_notification_on_new_error_unless_loading
    { loading := false, error := some { ref := 1, message := "Network Error" } }
    { loading := true, error := none } (initialState true) (initialState true)
    { ref := 1, message := "Network Error" } rfl rfl

/-- C13: for every state, `handleBackClick` yields `isConfigured = false`,
`formData = {blockChain: ethereum, address: ''}` (the constant `DEFAULT_FORM_DATA`) and
`filter = {energyAvailable: '', offerIssued: ''}` (the constant `DEFAULT_FILTER`); it also
sets `sortParams` to `{}` and keeps `formErrors` and `isMetaMaskInstalled`. -/
theorem C13_back_resets_to_defaults (state : State) :
    handleBackClick state =
        { isConfigured := false
          isMetaMaskInstalled := state.isMetaMaskInstalled
          formData := { blockChain := JSValue.string "ethereum", address := JSValue.string "" }
          formErrors := state.formErrors
          filter := { energyAvailable := "", offerIssued := none }
          sortParams := some [] } ∧
      (handleBackClick state).formData = DEFAULT_FORM_DATA ∧
      (handleBackClick state).filter = DEFAULT_FILTER ∧
      (handleBackClick
        { isConfigured := true
          isMetaMaskInstalled := true
          formData := { blockChain := JSValue.string "ethereum", address := JSValue.string "0xabc" }
          formErrors := [("blockChain", ""), ("address", "")]
          filter := { energyAvailable := "3,5", offerIssued := some 8640000 }
          sortParams := none }) =
        { isConfigured := false
          isMetaMaskInstalled := true
          formData := { blockChain := JSValue.string "ethereum", address := JSValue.string "" }
          formErrors := [("blockChain", ""), ("address", "")]
          filter := { energyAvailable := "", offerIssued := none }
          sortParams := some [] } :=
  ⟨rfl, rfl, rfl, rfl⟩

/-! ### The configured state holds a validated record -/

/-- A record passes validation exactly when both fields are non-empty strings. -/
theorem validate_eq_none_iff (labels : Labels) (formData : FormData) :
    validate (validationSchema labels) formData = none ↔ isValidRecord formData = true := by
  have hfail : ∀ (message : String) (value : JSValue),
      fieldFails (Rule.mk "string" true message) value = !isNonEmptyString value := by
    intro message value
    cases value <;> simp [fieldFails, isEmptyValue, typeMismatch, isNonEmptyString]
  have hb := hfail labels.metaMaskErrorsBlockChain formData.blockChain
  have ha := hfail labels.metaMaskErrorsAddress formData.address
  cases hvb : isNonEmptyString formData.blockChain <;>
    cases hva : isNonEmptyString formData.address <;>
    simp [hvb, hva] at hb ha <;>
    simp [validate, validationSchema, FormData.get, hb, ha, List.filter, isValidRecord, hvb, hva]

/-- The invariant is kept by every action: a configured state holds a valid record. -/
theorem configured_valid_step (labels : Labels) (state : State) (action : Action)
    (hinv : state.isConfigured = true → isValidRecord state.formData = true) :
    (step labels state action).isConfigured = true →
      isValidRecord (step labels state action).formData = true := by
  cases action with
  | submit formData =>
    simp only [step, handleSubmit]
    cases hv : validate (validationSchema labels) formData with
    | none =>
      intro _
      exact (validate_eq_none_iff labels formData).mp hv
    | some errors => exact hinv
  | back =>
    intro h
    simp [step, handleBackClick] at h
  | dateFilterChange timestamp => exact hinv
  | tradeVolumeChange value =>
    simp only [step, handleTradeVolumeChange]
    split
    · exact hinv
    · exact hinv

/-- The invariant holds after every sequence of actions from a state in which it holds. -/
theorem configured_valid_run (labels : Labels) (actions : List Action) (state : State)
    (hinv : state.isConfigured = true → isValidRecord state.formData = true) :
    (run labels state actions).isConfigured = true →
      isValidRecord (run labels state actions).formData = true := by
  induction actions generalizing state with
  | nil => exact hinv
  | cons a rest ih =>
    simp only [run, List.foldl_cons]
    exact ih (step labels state a) (configured_valid_step labels state a hinv)

/-- C12: in every state reached from the initial state by a sequence of `handleSubmit`,
`handleBackClick`, `handleDateFilterChange` and `handleTradeVolumeChange`, if `isConfigured`
is true then `formData` passes validation (`blockChain` and `address` are non-empty strings);
in every state, an action that turns `isConfigured` from false to true is a `handleSubmit` of
a record that passes validation and is stored as `formData`, and an action that turns it from
true to false is `handleBackClick`. -/
theorem C12_configured_only_with_valid_record (labels : Labels) (hasMetaMaskProvider : Bool)
    (actions : List Action) :
    ((run labels (initialState hasMetaMaskProvider) actions).isConfigured = true →
        isValidRecord (run labels (initialState hasMetaMaskProvider) actions).formData = true ∧
        validate (validationSchema labels)
          (run labels (initialState hasMetaMaskProvider) actions).formData = none) ∧
      (∀ (state : State) (action : Action), state.isConfigured = false →
        (step labels state action).isConfigured = true →
        ∃ formData, action = Action.submit formData ∧
          validate (validationSchema labels) formData = none ∧
          (step labels state action).formData = formData) ∧
      (∀ (state : State) (action : Action), state.isConfigured = true →
        (step labels state action).isConfigured = false → action = Action.back) := by
  refine ⟨?_, ?_, ?_⟩
  · intro h
    have hv := configured_valid_run labels actions (initialState hasMetaMaskProvider)
      (fun h0 => Bool.noConfusion h0) h
    exact ⟨hv, (validate_eq_none_iff labels _).mpr hv⟩
  · intro state action hs hs'
    cases action with
    | submit formData =>
      refine ⟨formData, rfl, ?_⟩
      simp only [step, handleSubmit] at hs' ⊢
      cases hv : validate (validationSchema labels) formData with
      | none => simp
      | some errors =>
        rw [hv] at hs'
        simp only at hs'
        rw [hs] at hs'
        exact Bool.noConfusion hs'
    | back => simp [step, handleBackClick] at hs'
    | dateFilterChange timestamp =>
      simp only [step, handleDateFilterChange] at hs'
      rw [hs] at hs'
      exact Bool.noConfusion hs'
    | tradeVolumeChange value =>
      simp only [step, handleTradeVolumeChange] at hs'
      split at hs' <;> (try simp only at hs') <;> (rw [hs] at hs'; exact Bool.noConfusion hs')
  · intro state action hs hs'
    cases action with
    | submit formData =>
      simp only [step, handleSubmit] at hs'
      cases hv : validate (validationSchema labels) formData with
      | none => rw [hv] at hs'; simp at hs'
      | some errors =>
        rw [hv] at hs'
        simp only at hs'
        rw [hs] at hs'
        exact Bool.noConfusion hs'
    | back => rfl
    | dateFilterChange timestamp =>
      simp only [step, handleDateFilterChange] at hs'
      rw [hs] at hs'
      exact Bool.noConfusion hs'
    | tradeVolumeChange value =>
      simp only [step, handleTradeVolumeChange] at hs'
      split at hs' <;> (try simp only at hs') <;> (rw [hs] at hs'; exact Bool.noConfusion hs')

/-- C12 after a valid submit followed by a date and a volume change: the state is configured
and holds the submitted record, which passes validation. -/
theorem C12_configured_only_with_valid_record_witness :
    isValidRecord
        (run { metaMaskErrorsBlockChain := "Select a blockchain",
               metaMaskErrorsAddress := "Select an address" } (initialState true)
          [Action.submit { blockChain := JSValue.string "", address := JSValue.string "0xabc" },
            Action.submit
              { blockChain := JSValue.string "ethereum", address := JSValue.string "0xabc" },
            Action.dateFilterChange 1000000000,
            Action.tradeVolumeChange "3,5"]).formData = true :=
  ((C12_configured_only_with_valid_record
      { metaMaskErrorsBlockChain := "Select a blockchain",
        metaMaskErrorsAddress := "Select an address" } true
      [Action.submit { blockChain := JSValue.string "", address := JSValue.string "0xabc" },
        Action.submit
          { blockChain := JSValue.string "ethereum", address := JSValue.string "0xabc" },
        Action.dateFilterChange 1000000000,
        Action.tradeVolumeChange "3,5"]).1 (by decide)).1

/-! ### A lone separator in the volume filter -/

/-- No Number is `>= NaN`. -/
theorem ge_nan (x : JSNumber) : x.ge JSNumber.nan = false := by
  cases x <;> rfl

/-- The text `.` holds no literal: `parseFloat` returns `NaN`. -/
theorem parseFloat_dot (rnd : ℚ → JSNumber) : parseFloat rnd ['.'] = JSNumber.nan := by
  rw [parseFloat_of_plain_head rnd '.' [] (by decide) (by decide) (by decide)]
  unfold strUnsignedDecimalLiteral
  rw [not_infinity_head '.' [] (by decide)]
  simp [List.takeWhile, List.dropWhile, isDecimalDigit]

/-- C15 (the code at the failing inputs `"."` and `","`): the guard of
`handleTradeVolumeChange` accepts the lone separator and stores it, the volume filter parses
it as `NaN`, and the filtered list is empty for every list of positions and every limit. -/
theorem C15_lone_separator_discards_every_position (rnd : ℚ → JSNumber)
    (TRADE_POSITIONS_LIMIT : Nat) (state : State) (tradePositions : List TradePosition) :
    (handleTradeVolumeChange state ".").filter.energyAvailable = "." ∧
      (handleTradeVolumeChange state ",").filter.energyAvailable = "," ∧
      parseFloat rnd (replaceFirstComma ".".data) = JSNumber.nan ∧
      parseFloat rnd (replaceFirstComma ",".data) = JSNumber.nan ∧
      filteredTradePositions rnd TRADE_POSITIONS_LIMIT { energyAvailable := ".", offerIssued := none }
        tradePositions = [] ∧
      filteredTradePositions rnd TRADE_POSITIONS_LIMIT { energyAvailable := ",", offerIssued := none }
        tradePositions = [] := by
  have hdot : tradeVolumePatternTest "." = true := by decide
  have hcomma : tradeVolumePatternTest "," = true := by decide
  have h1 : parseFloat rnd (replaceFirstComma ".".data) = JSNumber.nan := parseFloat_dot rnd
  have h2 : parseFloat rnd (replaceFirstComma ",".data) = JSNumber.nan := parseFloat_dot rnd
  have hpass : ∀ (text : String), text.data ≠ [] →
      parseFloat rnd (replaceFirstComma text.data) = JSNumber.nan →
      filteredTradePositions rnd TRADE_POSITIONS_LIMIT { energyAvailable := text, offerIssued := none }
        tradePositions = [] := by
    intro text hne hnan
    unfold filteredTradePositions
    have : tradePositions.filter (isPass rnd { energyAvailable := text, offerIssued := none }) = [] := by
      rw [List.filter_eq_nil_iff]
      intro p _
      simp [isPass, hne, hnan, ge_nan]
    rw [this, List.take_nil]
  refine ⟨?_, ?_, h1, h2, hpass "." (by decide) h1, hpass "," (by decide) h2⟩
  · simp only [handleTradeVolumeChange, hdot, if_true]
  · simp only [handleTradeVolumeChange, hcomma, if_true]

end DirectTrading

namespace Transactions

open DirectTrading

/-! ### The `details` projection of `getRecentTransactions` -/

/-- The falsy values are `undefined`, `null`, `false`, `0`, `NaN` and `''`. -/
theorem truthy_eq_false_iff (v : JSValue) :
    truthy v = false ↔
      v = JSValue.undefined ∨ v = JSValue.null ∨ v = JSValue.boolean false ∨
        v = JSValue.number (JSNumber.fin 0) ∨ v = JSValue.number JSNumber.nan ∨
        v = JSValue.string "" := by
  cases v with
  | undefined => simp [truthy]
  | null => simp [truthy]
  | boolean b => cases b <;> simp [truthy]
  | number n => cases n <;> simp [truthy]
  | string s =>
    simp only [truthy, Bool.not_eq_false', List.isEmpty_iff, reduceCtorEq, false_or,
      JSValue.string.injEq]
    constructor
    · intro h
      cases s
      simp only at h
      subst h
      rfl
    · intro h
      rw [h]

/-- C14 (counterexample): a record whose `transactionHash` is present and is the empty string
gets `details.hash = '--'`, not the `transactionHash` of the record. -/
theorem C14_empty_hash_replaced_by_default :
    (getRecentTransactions (JSValue.number (JSNumber.fin 1700000000000))
        { balance := JSValue.undefined, lastUpdatedAt := JSValue.undefined }
        { transactions := some
            [{ transactionHash := JSValue.string "", price := JSValue.undefined,
               energyAmount := JSValue.undefined, from_ := JSValue.string "0x11",
               detailsLink := JSValue.undefined, other := [], details := none }],
          currentBalance := none }).transactions =
      some
        [{ transactionHash := JSValue.string "", price := JSValue.undefined,
           energyAmount := JSValue.undefined, from_ := JSValue.string "0x11",
           detailsLink := JSValue.undefined, other := [],
           details := some
             { hash := JSValue.string "--", price := JSValue.number (JSNumber.fin 0),
               amount := JSValue.number (JSNumber.fin 0), from_ := JSValue.string "0x11",
               url := JSValue.string "" } }] ∧
      JSValue.string "--" ≠ JSValue.string "" := by
  refine ⟨rfl, by decide⟩

/-- C14 (amended): `getRecentTransactions` assigns to every transaction record of the response
the object `details = {hash, price, amount, from, url}`, where each entry is the
`transactionHash`, `price`, `energyAmount`, `from`, `detailsLink` of the record when that field
is truthy, and the default `'--'`, `0`, `0`, `'--'`, `''` when the field is absent or otherwise
falsy (`null`, `false`, `0`, `NaN`, `''`); the other fields of the record are unchanged. -/
theorem C14_details_projection (dateNow : JSValue) (balanceData : BalanceData)
    (historyData : HistoryData) (tx : Transaction) :
    (getRecentTransactions dateNow balanceData historyData).transactions =
        some ((historyData.transactions.getD []).map assignDetails) ∧
      (assignDetails tx).details = some
        { hash := if truthy tx.transactionHash = true then tx.transactionHash
            else JSValue.string "--"
          price := if truthy tx.price = true then tx.price else JSValue.number (JSNumber.fin 0)
          amount := if truthy tx.energyAmount = true then tx.energyAmount
            else JSValue.number (JSNumber.fin 0)
          from_ := if truthy tx.from_ = true then tx.from_ else JSValue.string "--"
          url := if truthy tx.detailsLink = true then tx.detailsLink else JSValue.string "" } ∧
      (∀ v : JSValue, truthy v = false ↔
        v = JSValue.undefined ∨ v = JSValue.null ∨ v = JSValue.boolean false ∨
          v = JSValue.number (JSNumber.fin 0) ∨ v = JSValue.number JSNumber.nan ∨
          v = JSValue.string "") ∧
      (assignDetails tx).transactionHash = tx.transactionHash ∧
      (assignDetails tx).price = tx.price ∧
      (assignDetails tx).energyAmount = tx.energyAmount ∧
      (assignDetails tx).from_ = tx.from_ ∧
      (assignDetails tx).detailsLink = tx.detailsLink ∧
      (assignDetails tx).other = tx.other ∧
      (assignDetails
          { transactionHash := JSValue.undefined, price := JSValue.undefined,
            energyAmount := JSValue.undefined, from_ := JSValue.undefined,
            detailsLink := JSValue.undefined, other := tx.other, details := none }).details =
        some
          { hash := JSValue.string "--", price := JSValue.number (JSNumber.fin 0),
            amount := JSValue.number (JSNumber.fin 0), from_ := JSValue.string "--",
            url := JSValue.string "" } :=
  ⟨rfl, rfl, truthy_eq_false_iff, rfl, rfl, rfl, rfl, rfl, rfl, rfl⟩

end Transactions
